import Mathlib

/-!
Verification development for the Matrix Game Server (src/server/index.js).

The server's per-room mutable state and its Socket.IO event handlers are
embedded as pure Lean functions on an explicit `Room` record.  Randomness
(Math.random) is externalized: board-generating code takes a stream
`Nat -> Nat` of raw draws, and the room state machine takes freshly
generated boards as event parameters supplied by the environment.
The two kinds of setTimeout callbacks (the post-round delay and the
per-seat disconnect grace timer) are modelled as explicit pending-task
fields whose firing is a separate event; JavaScript Date.now() values
arrive as oracle parameters.  Numbers held in room state are integers in
the source, so they are modelled as Int/Nat; the fairness score, which the
source computes with floating point square roots, is modelled with exact
reals (its integer/rational components, used by the hard constraints, are
modelled exactly and computably).
-/

/-- The two seats of a room: A picks the row, B picks the column. -/
inductive Team where
  | A : Team
  | B : Team
deriving DecidableEq, Fintype, Repr

/-- The opposite seat, as in the joinRoom handler's `other` variable. -/
def otherTeam : Team → Team
  | Team.A => Team.B
  | Team.B => Team.A

/-- One board cell holding the two payoffs, cell.a for A and cell.b for B. -/
structure Cell where
  a : Int
  b : Int
deriving DecidableEq, Repr

/-- A 3x3 payoff board, as produced by the board generators. -/
abbrev Board := Fin 3 → Fin 3 → Cell

/-- Game-over outcome as computed in finishRound. -/
inductive Winner where
  | A : Winner
  | B : Winner
  | draw : Winner
deriving DecidableEq, Repr

/-- A pending post-round setTimeout callback scheduled by finishRound.
The game-over callback captures the final scores and winner at scheduling
time; the next-round callback regenerates the board when it fires. -/
inductive PendTask where
  | gameOverT (fsA fsB : Int) (w : Winner) : PendTask
  | nextT : PendTask
deriving DecidableEq, Repr

/-- A JavaScript value arriving in an event payload (the subset relevant to
the pick handlers: JSON null, absent field = undefined, integers, strings,
booleans). -/
inductive JSVal where
  | null : JSVal
  | undef : JSVal
  | num (n : Int) : JSVal
  | str (s : String) : JSVal
  | bool (b : Bool) : JSVal
deriving DecidableEq, Repr

/-- The code points JavaScript Number() trims from a string before
parsing (ECMAScript WhiteSpace and LineTerminator). -/
def jsWhitespace (c : Char) : Bool :=
  let n := c.toNat
  n = 0x09 || n = 0x0A || n = 0x0B || n = 0x0C || n = 0x0D || n = 0x20 ||
    n = 0xA0 || n = 0x1680 || (0x2000 ≤ n && n ≤ 0x200A) || n = 0x2028 ||
    n = 0x2029 || n = 0x202F || n = 0x205F || n = 0x3000 || n = 0xFEFF

/-- Value of a decimal digit character list. -/
def digitsVal (l : List Char) : Nat :=
  l.foldl (fun acc c => acc * 10 + (c.toNat - 48)) 0

/-- A non-empty all-decimal-digit character list, or failure. -/
def decDigits (l : List Char) : Option Nat :=
  if l ≠ [] ∧ l.all Char.isDigit then some (digitsVal l) else none

/-- Value of one hexadecimal digit character. -/
def hexVal (c : Char) : Option Nat :=
  if c.isDigit then some (c.toNat - 48)
  else if 'a' ≤ c ∧ c ≤ 'f' then some (c.toNat - 87)
  else if 'A' ≤ c ∧ c ≤ 'F' then some (c.toNat - 55)
  else none

/-- Value of a non-empty digit string of the given base (2, 8 or 16), as
Number() reads the body of a 0b/0o/0x literal. -/
def baseDigits (base : Nat) (l : List Char) : Option Nat :=
  if l = [] then none
  else
    l.foldl (fun acc c => acc.bind (fun a =>
      (hexVal c).bind (fun d => if d < base then some (a * base + d) else none)))
      (some 0)

/-- Exact value of sign * m * 10 ^ k when it is an integer, else `none`
(a non-integral value: such a number can never pass the handlers'
membership test against 0, 1, 2). -/
def scaleByPow10 (m : Nat) (k : Int) : Option Int :=
  if 0 ≤ k then some (Int.ofNat (m * 10 ^ k.toNat))
  else if m % 10 ^ (-k).toNat = 0 then some (Int.ofNat (m / 10 ^ (-k).toNat))
  else none

/-- The exponent part of a decimal literal after the e/E: an optionally
signed non-empty digit string. -/
def parseDecExp (l : List Char) : Option Int :=
  match l with
  | '+' :: ds => (decDigits ds).map Int.ofNat
  | '-' :: ds => (decDigits ds).map (fun n => -(Int.ofNat n))
  | ds => (decDigits ds).map Int.ofNat

/-- The mantissa of a decimal literal: digits with an optional single
point, at least one digit in total; returns the digit value with the
point removed and the number of fraction digits. -/
def parseDecMant (mant : List Char) : Option (Nat × Nat) :=
  let ip := mant.takeWhile (fun c => c ≠ '.')
  let fpOpt : Option (List Char) :=
    match mant.drop ip.length with
    | [] => some []
    | '.' :: rest => if rest.all Char.isDigit then some rest else none
    | _ => none
  match fpOpt with
  | none => none
  | some fp =>
    if ip.all Char.isDigit ∧ (ip ++ fp) ≠ [] then
      some (digitsVal (ip ++ fp), fp.length)
    else none

/-- An unsigned decimal literal (mantissa plus optional e/E exponent),
evaluated exactly. -/
def parseDecimal (l : List Char) : Option Int :=
  let mant := l.takeWhile (fun c => ¬(c = 'e' ∨ c = 'E'))
  let expOpt : Option Int :=
    match l.drop mant.length with
    | [] => some 0
    | _ :: rest => parseDecExp rest
  match parseDecMant mant, expOpt with
  | some (m, f), some e => scaleByPow10 m (e - Int.ofNat f)
  | _, _ => none

/-- A decimal literal with an optional leading sign (0x/0o/0b literals
take no sign in Number(), so the sign is handled here only). -/
def parseSignedDecimal (l : List Char) : Option Int :=
  match l with
  | '+' :: rest => parseDecimal rest
  | '-' :: rest => (parseDecimal rest).map Int.neg
  | _ => parseDecimal l

/-- JavaScript Number() coercion on a string, evaluated exactly: after
Number()'s whitespace trimming, the empty string is 0, an optionally
signed decimal literal (digits with optional fraction and e/E exponent)
has its exact value, an unsigned 0x/0X, 0o/0O or 0b/0B literal has its
integer value, and anything else is NaN.  `none` collapses every result
the pick handlers can never act on: NaN, plus and minus Infinity, and
non-integral values — the handlers only test membership in 0, 1, 2 and
only store the coerced value when that test passes, so this collapse
preserves their observable behavior.  The one idealization, matching the
exact-real treatment of the fairness score, is exact rather than
IEEE-754 arithmetic: a literal whose exact value is non-integral but
rounds or underflows to 0, 1 or 2 in double precision is not modelled as
accepted. -/
def jsStrToNum (s : String) : Option Int :=
  let l := ((s.toList.dropWhile jsWhitespace).reverse.dropWhile jsWhitespace).reverse
  match l with
  | [] => some 0
  | '0' :: 'x' :: rest => (baseDigits 16 rest).map Int.ofNat
  | '0' :: 'X' :: rest => (baseDigits 16 rest).map Int.ofNat
  | '0' :: 'o' :: rest => (baseDigits 8 rest).map Int.ofNat
  | '0' :: 'O' :: rest => (baseDigits 8 rest).map Int.ofNat
  | '0' :: 'b' :: rest => (baseDigits 2 rest).map Int.ofNat
  | '0' :: 'B' :: rest => (baseDigits 2 rest).map Int.ofNat
  | _ => parseSignedDecimal l

/-- JavaScript Number() coercion, with `none` standing for NaN (or, for
strings, any other value the pick handlers can never accept — see
jsStrToNum). -/
def toNumber : JSVal → Option Int
  | JSVal.null => some 0
  | JSVal.undef => none
  | JSVal.num n => some n
  | JSVal.str s => jsStrToNum s
  | JSVal.bool b => some (if b then 1 else 0)

/-- The public snapshot sent in roomState/gameStart/invalidPick/nextRound
events (publicState in the source; the room id is implicit in the
single-room model). -/
structure PublicState where
  playersA : Bool
  playersB : Bool
  round : Nat
  scoresA : Int
  scoresB : Int
  picksA : Option Int
  picksB : Option Int
  board : Option Board
  active : Bool
deriving DecidableEq, Repr

/-- The payload of a roundResult event: chosen coordinates, per-seat deltas
and the updated totals (resolveRound's return value). -/
structure RoundRes where
  row : Int
  col : Int
  deltaA : Int
  deltaB : Int
  scoresA : Int
  scoresB : Int
deriving DecidableEq, Repr

/-- An outbound event emitted by a handler (message strings elided; each
constructor corresponds to one emit call site kind in the source).
`crash` marks a JavaScript TypeError that the source would throw
(indexing a null board); it is unreachable from valid states. -/
inductive Msg where
  | errorMsg : Msg
  | invalidPick (st : PublicState) : Msg
  | roomState (st : PublicState) : Msg
  | waiting : Msg
  | gameStart (st : PublicState) : Msg
  | roundResult (res : RoundRes) (board : Option Board) (round : Nat) : Msg
  | nextRound (st : PublicState) : Msg
  | gameOver (fsA fsB : Int) (w : Winner) : Msg
  | opponentLeft : Msg
  | opponentDisconnected : Msg
  | crash : Msg
deriving DecidableEq, Repr

/-- One room's state (the record stored in the rooms map, plus the
disconnect-tracking fields of initDisconnectTracking and the queue of
pending post-round timeouts, which in the source live in the JavaScript
event loop). -/
structure Room where
  players : Team → Option Nat
  round : Nat
  scores : Team → Int
  picks : Team → Option Int
  board : Option Board
  active : Bool
  offlineSince : Team → Option Int
  timers : Team → Option Int
  pendingRound : List PendTask

/-- Point update of a per-team field. -/
def setT {α : Type} (f : Team → α) (t : Team) (v : α) : Team → α :=
  fun t' => if t' = t then v else f t'

instance : DecidableEq Room := fun x y =>
  decidable_of_iff
    (x.players Team.A = y.players Team.A ∧ x.players Team.B = y.players Team.B ∧
      x.round = y.round ∧
      x.scores Team.A = y.scores Team.A ∧ x.scores Team.B = y.scores Team.B ∧
      x.picks Team.A = y.picks Team.A ∧ x.picks Team.B = y.picks Team.B ∧
      x.board = y.board ∧ x.active = y.active ∧
      x.offlineSince Team.A = y.offlineSince Team.A ∧
      x.offlineSince Team.B = y.offlineSince Team.B ∧
      x.timers Team.A = y.timers Team.A ∧ x.timers Team.B = y.timers Team.B ∧
      x.pendingRound = y.pendingRound)
    (by
      constructor
      · rintro ⟨h1, h2, h3, h4, h5, h6, h7, h8, h9, h10, h11, h12, h13, h14⟩
        cases x
        cases y
        congr 1 <;> try assumption
        · funext t; cases t <;> assumption
        · funext t; cases t <;> assumption
        · funext t; cases t <;> assumption
        · funext t; cases t <;> assumption
        · funext t; cases t <;> assumption
      · rintro rfl
        exact ⟨rfl, rfl, rfl, rfl, rfl, rfl, rfl, rfl, rfl, rfl, rfl, rfl, rfl, rfl⟩)

instance : DecidableEq (Option Room) := fun x y =>
  match x, y with
  | none, none => isTrue rfl
  | none, some _ => isFalse (fun h => Option.noConfusion h)
  | some _, none => isFalse (fun h => Option.noConfusion h)
  | some a, some b =>
    decidable_of_iff (a = b) ⟨fun h => congrArg some h, fun h => Option.some.inj h⟩

/-- publicState from the source. -/
def publicState (r : Room) : PublicState :=
  { playersA := (r.players Team.A).isSome
    playersB := (r.players Team.B).isSome
    round := r.round
    scoresA := r.scores Team.A
    scoresB := r.scores Team.B
    picksA := r.picks Team.A
    picksB := r.picks Team.B
    board := r.board
    active := r.active }

/-- resetPicks from the source. -/
def resetPicks (r : Room) : Room :=
  { r with picks := fun _ => none }

/-- clearDisconnectTimer from the source: cancels the pending grace
timeout for the seat and clears its offline tag. -/
def clearDisconnectTimer (r : Room) (t : Team) : Room :=
  { r with timers := setT r.timers t none
           offlineSince := setT r.offlineSince t none }

/-- resetRoomAfterLeave from the source. -/
def resetRoomAfterLeave (r : Room) : Room :=
  { r with active := false
           round := 0
           scores := fun _ => 0
           picks := fun _ => none
           board := none
           offlineSince := fun _ => none
           timers := fun _ => none }

/-- bothPicked from the source. -/
def bothPicked (r : Room) : Bool :=
  (r.picks Team.A).isSome && (r.picks Team.B).isSome

/-- startGame from the source; the freshly generated round-1 board is
supplied by the environment. -/
def startGame (r : Room) (b : Board) : Room :=
  { r with active := true
           round := 1
           scores := fun _ => 0
           picks := fun _ => none
           board := some b
           offlineSince := fun _ => none
           timers := fun _ => none }

/-- Array indexing guard: a JavaScript index reads a board cell only when
it is 0, 1 or 2. -/
def toFin3 (n : Int) : Option (Fin 3) :=
  if h : 0 ≤ n ∧ n < 3 then some ⟨n.toNat, by omega⟩ else none

/-- resolveRound from the source: reads the cell at the two picks, adds
its payoffs to the scores and returns the result record; `none` models
the TypeError the source throws if the board or a pick is missing. -/
def resolveRound (r : Room) : Option (Room × RoundRes) :=
  match r.board, r.picks Team.A, r.picks Team.B with
  | some b, some row, some col =>
    match toFin3 row, toFin3 col with
    | some fr, some fc =>
      let cell := b fr fc
      let r1 : Room :=
        { r with scores := fun t => r.scores t + (match t with
            | Team.A => cell.a
            | Team.B => cell.b) }
      some (r1, { row := row, col := col, deltaA := cell.a, deltaB := cell.b
                  scoresA := r1.scores Team.A, scoresB := r1.scores Team.B })
    | _, _ => none
  | _, _, _ => none

/-- finishRound from the source: resolves the round, emits roundResult,
and schedules the delayed callback (game over after round 9, otherwise
next round). -/
def finishRound (r : Room) : Room × List Msg :=
  match resolveRound r with
  | none => (r, [Msg.crash])
  | some (r1, res) =>
    let m1 := Msg.roundResult res r1.board r1.round
    if r1.round ≥ 9 then
      let fsA := r1.scores Team.A
      let fsB := r1.scores Team.B
      let w := if fsA = fsB then Winner.draw
               else if fsA > fsB then Winner.A else Winner.B
      ({ r1 with pendingRound := r1.pendingRound ++ [PendTask.gameOverT fsA fsB w] }, [m1])
    else
      ({ r1 with pendingRound := r1.pendingRound ++ [PendTask.nextT] }, [m1])

/-- The pickRow handler from the source. -/
def pickRow (r : Room) (sid : Nat) (v : JSVal) : Room × List Msg :=
  if r.active = false then (r, [Msg.errorMsg])
  else if r.players Team.A ≠ some sid then (r, [Msg.errorMsg])
  else
    match toNumber v with
    | none => (r, [Msg.invalidPick (publicState r)])
    | some n =>
      if ¬(n = 0 ∨ n = 1 ∨ n = 2) then (r, [Msg.invalidPick (publicState r)])
      else if r.picks Team.A ≠ none then (r, [Msg.invalidPick (publicState r)])
      else
        let r1 := { r with picks := setT r.picks Team.A (some n) }
        let m := Msg.roomState (publicState r1)
        if bothPicked r1 then
          let p := finishRound r1
          (p.1, m :: p.2)
        else (r1, [m])

/-- The pickCol handler from the source. -/
def pickCol (r : Room) (sid : Nat) (v : JSVal) : Room × List Msg :=
  if r.active = false then (r, [Msg.errorMsg])
  else if r.players Team.B ≠ some sid then (r, [Msg.errorMsg])
  else
    match toNumber v with
    | none => (r, [Msg.invalidPick (publicState r)])
    | some n =>
      if ¬(n = 0 ∨ n = 1 ∨ n = 2) then (r, [Msg.invalidPick (publicState r)])
      else if r.picks Team.B ≠ none then (r, [Msg.invalidPick (publicState r)])
      else
        let r1 := { r with picks := setT r.picks Team.B (some n) }
        let m := Msg.roomState (publicState r1)
        if bothPicked r1 then
          let p := finishRound r1
          (p.1, m :: p.2)
        else (r1, [m])

/-- The part of the joinRoom handler after the seat-occupancy check:
vacate the other seat if this socket held it, take the seat, cancel the
seat's grace timer, and auto-start the game when both seats are occupied
and no game is active. -/
def joinRoomBody (r : Room) (sid : Nat) (t : Team) (b : Board) : Room × List Msg :=
  let r1 := if r.players (otherTeam t) = some sid then
              { r with players := setT r.players (otherTeam t) none }
            else r
  let r2 := { r1 with players := setT r1.players t (some sid) }
  let r3 := clearDisconnectTimer r2 t
  let m1 := Msg.roomState (publicState r3)
  if (r3.players Team.A).isSome && (r3.players Team.B).isSome && !r3.active then
    let r4 := startGame r3 b
    (r4, [m1, Msg.gameStart (publicState r4)])
  else if !(r3.players Team.A).isSome || !(r3.players Team.B).isSome then
    (r3, [m1, Msg.waiting])
  else (r3, [m1])

/-- The joinRoom handler from the source (team already parsed: `none`
models a payload that is neither "A" nor "B"; detachFromOtherRooms only
touches other rooms and is a no-op in this single-room model).  The board
parameter is the freshly generated board used only if the join starts a
game. -/
def joinRoom (r : Room) (sid : Nat) (team : Option Team) (b : Board) : Room × List Msg :=
  match team with
  | none => (r, [Msg.errorMsg])
  | some t =>
    match r.players t with
    | some p =>
      if p ≠ sid then (r, [Msg.errorMsg])
      else joinRoomBody r sid t b
    | none => joinRoomBody r sid t b

/-- The leaveRoom handler from the source; `none` in the first component
means the room was deleted from the registry. -/
def leaveRoom (r : Room) (sid : Nat) : Option Room × List Msg :=
  let ts := [Team.A, Team.B].filter (fun t => r.players t = some sid)
  if ts = [] then (some r, [Msg.errorMsg])
  else
    let r1 := ts.foldl (fun acc t =>
      let a1 := { acc with players := setT acc.players t none }
      let a2 := clearDisconnectTimer a1 t
      { a2 with offlineSince := setT a2.offlineSince t none }) r
    let hasPlayers := (r1.players Team.A).isSome || (r1.players Team.B).isSome
    if hasPlayers then
      let r2 := resetRoomAfterLeave r1
      (some r2, [Msg.opponentLeft, Msg.roomState (publicState r2), Msg.waiting,
                 Msg.roomState (publicState r2)])
    else
      let r2 := resetRoomAfterLeave r1
      (none, [Msg.roomState (publicState r2)])

/-- The restartGame handler from the source. -/
def restartGame (r : Room) (sid : Nat) (b : Board) : Room × List Msg :=
  if ¬(r.players Team.A = some sid ∨ r.players Team.B = some sid) then (r, [Msg.errorMsg])
  else if ¬((r.players Team.A).isSome ∧ (r.players Team.B).isSome) then (r, [Msg.errorMsg])
  else if r.active then (r, [Msg.errorMsg])
  else
    let r1 := startGame r b
    (r1, [Msg.gameStart (publicState r1)])

/-- The disconnect handler from the source, restricted to this room; the
oracle `time` is the Date.now() timestamp recorded as the offline tag and
captured by the scheduled grace timeout. -/
def onDisconnect (r : Room) (sid : Nat) (time : Int) : Room × List Msg :=
  let ts := [Team.A, Team.B].filter (fun t => r.players t = some sid)
  if ts = [] then (r, [])
  else
    let r1 := ts.foldl (fun acc t =>
      let a1 := { acc with players := setT acc.players t none }
      let a2 := clearDisconnectTimer a1 t
      { a2 with offlineSince := setT a2.offlineSince t (some time)
                timers := setT a2.timers t (some time) }) r
    (r1, [Msg.roomState (publicState r1), Msg.opponentDisconnected])

/-- Firing of a seat's disconnect grace timeout.  The timeout only exists
while uncancelled (`timers t = some tag`); firing spends it.  The guard
in the source's callback compares the captured tag with the current
offlineSince before ending the game. -/
def fireGrace (r : Room) (t : Team) : Room × List Msg :=
  match r.timers t with
  | none => (r, [])
  | some tag =>
    let r0 := { r with timers := setT r.timers t none }
    if r.offlineSince t ≠ some tag then (r0, [])
    else
      let r1 := { r0 with active := false
                          picks := fun _ => none
                          board := none
                          offlineSince := setT r0.offlineSince t none }
      (r1, [Msg.opponentLeft, Msg.roomState (publicState r1)])

/-- Firing of the oldest pending post-round timeout (all are scheduled
with the same delay, so they fire in FIFO order); the board parameter is
the freshly generated board used by the next-round callback. -/
def fireRound (r : Room) (b : Board) : Room × List Msg :=
  match r.pendingRound with
  | [] => (r, [])
  | task :: rest =>
    match task with
    | PendTask.gameOverT fsA fsB w =>
      ({ r with active := false, picks := fun _ => none, pendingRound := rest },
       [Msg.gameOver fsA fsB w])
    | PendTask.nextT =>
      let r1 := { r with round := r.round + 1
                         picks := fun _ => none
                         board := some b
                         pendingRound := rest }
      (r1, [Msg.nextRound (publicState r1)])

/-- An inbound action on one room.  Events that make the server generate a
board carry it as an oracle parameter; disconnects carry the Date.now()
oracle. -/
inductive Event where
  | join (sid : Nat) (team : Option Team) (b : Board) : Event
  | pickRowE (sid : Nat) (v : JSVal) : Event
  | pickColE (sid : Nat) (v : JSVal) : Event
  | leave (sid : Nat) : Event
  | restart (sid : Nat) (b : Board) : Event
  | disconnectE (sid : Nat) (time : Int) : Event
  | graceFire (t : Team) : Event
  | roundFire (b : Board) : Event

/-- Dispatch of one event on a live room; `none` in the result means the
room was deleted. -/
def stepRoom (r : Room) : Event → Option Room × List Msg
  | Event.join sid team b => let p := joinRoom r sid team b; (some p.1, p.2)
  | Event.pickRowE sid v => let p := pickRow r sid v; (some p.1, p.2)
  | Event.pickColE sid v => let p := pickCol r sid v; (some p.1, p.2)
  | Event.leave sid => leaveRoom r sid
  | Event.restart sid b => let p := restartGame r sid b; (some p.1, p.2)
  | Event.disconnectE sid time => let p := onDisconnect r sid time; (some p.1, p.2)
  | Event.graceFire t => let p := fireGrace r t; (some p.1, p.2)
  | Event.roundFire b => let p := fireRound r b; (some p.1, p.2)

/-- Dispatch at the registry level: a request naming a deleted room gets
the room-not-found error; pending timers of a deleted room are discarded
harmlessly. -/
def stepSrv (s : Option Room) (e : Event) : Option Room × List Msg :=
  match s with
  | some r => stepRoom r e
  | none =>
    match e with
    | Event.join _ _ _ => (none, [Msg.errorMsg])
    | Event.pickRowE _ _ => (none, [Msg.errorMsg])
    | Event.pickColE _ _ => (none, [Msg.errorMsg])
    | Event.leave _ => (none, [Msg.errorMsg])
    | Event.restart _ _ => (none, [Msg.errorMsg])
    | _ => (none, [])

/-- The room record as initialized by the create-room endpoint. -/
def initRoom : Room :=
  { players := fun _ => none
    round := 0
    scores := fun _ => 0
    picks := fun _ => none
    board := none
    active := false
    offlineSince := fun _ => none
    timers := fun _ => none
    pendingRound := [] }

/-- Run a list of events from a registry state. -/
def runEvents (s : Option Room) (es : List Event) : Option Room :=
  es.foldl (fun s e => (stepSrv s e).1) s

/-- Registry states reachable from a freshly created room. -/
inductive Reachable : Option Room → Prop where
  | init : Reachable (some initRoom)
  | step {s : Option Room} (h : Reachable s) (e : Event) : Reachable (stepSrv s e).1

/-!
Board generation (genPureRandomBoard, genCandidateBoard, scoreBoard,
genFairBoard) and the rubber-band policy.  Math.random is externalized as
a stream of raw natural draws: randInt(min, max) becomes
min + draw mod (max - min + 1), which has the same image as
Math.floor(Math.random() * (max - min + 1)) + min.  The integer and
rational components of scoreBoard (row/column sums, means, spreads) are
modelled exactly; the scalar fairness score, which the source computes
with Math.sqrt on doubles, is modelled as an exact real number.
-/

/-- clamp from the source. -/
def clampZ (v lo hi : Int) : Int := max lo (min hi v)

/-- randInt from the source, reading draw number k of the stream. -/
def randIntAt (s : Nat → Nat) (k : Nat) (lo hi : Int) : Int :=
  lo + ((s k % (hi - lo + 1).toNat : Nat) : Int)

/-- Advance a draw stream past its first k values. -/
def shiftStream (s : Nat → Nat) (k : Nat) : Nat → Nat :=
  fun n => s (n + k)

/-- genPureRandomBoard from the source: 18 uniform draws in [-60, 60],
row-major, a before b. -/
def genPureRandomBoard (s : Nat → Nat) : Board :=
  fun r c =>
    { a := randIntAt s (2 * (3 * r.val + c.val)) (-60) 60
      b := randIntAt s (2 * (3 * r.val + c.val) + 1) (-60) 60 }

/-- genCandidateBoard from the source: each draw is shifted by the seat's
bias and clamped back into [-60, 60]. -/
def genCandidateBoard (biasA biasB : Int) (s : Nat → Nat) : Board :=
  fun r c =>
    { a := clampZ (randIntAt s (2 * (3 * r.val + c.val)) (-60) 60 + biasA) (-60) 60
      b := clampZ (randIntAt s (2 * (3 * r.val + c.val) + 1) (-60) 60 + biasB) (-60) 60 }

/-- The tunable configuration constants of the generator (safe defaults
from the source; all are read from the environment there). -/
structure Cfg where
  fairMode : Bool
  rubberBand : Bool
  candidates : Nat
  meanLimit : ℚ
  spreadLimit : Int
  extremeStart : Int
  maxBias : Int
  biasStep : ℚ
deriving DecidableEq

/-- The default configuration of the source. -/
def defaultCfg : Cfg :=
  { fairMode := true
    rubberBand := true
    candidates := 220
    meanLimit := 12
    spreadLimit := 90
    extremeStart := 45
    maxBias := 6
    biasStep := 25 }

/-- Row sum of the a-payoffs (rowSumA in scoreBoard). -/
def rowSumA (b : Board) (r : Fin 3) : Int :=
  (b r 0).a + (b r 1).a + (b r 2).a

/-- Column sum of the b-payoffs (colSumB in scoreBoard). -/
def colSumB (b : Board) (c : Fin 3) : Int :=
  (b 0 c).b + (b 1 c).b + (b 2 c).b

/-- meanA in scoreBoard: mean of the three row sums, an exact rational. -/
def meanA (b : Board) : ℚ :=
  ((rowSumA b 0 + rowSumA b 1 + rowSumA b 2 : Int) : ℚ) / 3

/-- meanB in scoreBoard: mean of the three column sums. -/
def meanB (b : Board) : ℚ :=
  ((colSumB b 0 + colSumB b 1 + colSumB b 2 : Int) : ℚ) / 3

/-- spreadA in scoreBoard: max minus min of the row sums. -/
def spreadA (b : Board) : Int :=
  max (rowSumA b 0) (max (rowSumA b 1) (rowSumA b 2)) -
    min (rowSumA b 0) (min (rowSumA b 1) (rowSumA b 2))

/-- spreadB in scoreBoard: max minus min of the column sums. -/
def spreadB (b : Board) : Int :=
  max (colSumB b 0) (max (colSumB b 1) (colSumB b 2)) -
    min (colSumB b 0) (min (colSumB b 1) (colSumB b 2))

/-- The hard constraints of genFairBoard's first pass: a candidate is kept
when neither mean magnitude exceeds MEAN_LIMIT and neither spread exceeds
SPREAD_LIMIT (the source discards on strict excess). -/
def hardOk (cfg : Cfg) (b : Board) : Prop :=
  |meanA b| ≤ cfg.meanLimit ∧ |meanB b| ≤ cfg.meanLimit ∧
    spreadA b ≤ cfg.spreadLimit ∧ spreadB b ≤ cfg.spreadLimit

instance (cfg : Cfg) (b : Board) : Decidable (hardOk cfg b) := by
  unfold hardOk; infer_instance

/-- The worst a-payoff of a row (rowWorstA; the Infinity initializer of
the source is absorbed by taking the min of the three cells). -/
def rowWorstA (b : Board) (r : Fin 3) : Int :=
  min (b r 0).a (min (b r 1).a (b r 2).a)

/-- The worst b-payoff of a column (colWorstB). -/
def colWorstB (b : Board) (c : Fin 3) : Int :=
  min (b 0 c).b (min (b 1 c).b (b 2 c).b)

/-- The extreme-cell penalty accumulated in scoreBoard's loop:
0.6 * max(0, |x| - EXTREME_START) per payoff. -/
def extremePenalty (cfg : Cfg) (b : Board) : ℚ :=
  (3 / 5 : ℚ) * ((Finset.univ : Finset (Fin 3)).sum fun r =>
    (Finset.univ : Finset (Fin 3)).sum fun c =>
      ((max 0 (|(b r c).a| - cfg.extremeStart) + max 0 (|(b r c).b| - cfg.extremeStart) : Int) : ℚ))

/-- guaranteeA in scoreBoard: A's minimax guarantee. -/
def guaranteeA (b : Board) : Int :=
  max (rowWorstA b 0) (max (rowWorstA b 1) (rowWorstA b 2))

/-- guaranteeB in scoreBoard: B's minimax guarantee. -/
def guaranteeB (b : Board) : Int :=
  max (colWorstB b 0) (max (colWorstB b 1) (colWorstB b 2))

/-- dominancePenalty in scoreBoard. -/
def dominancePenalty (b : Board) : Int :=
  max 0 (|guaranteeA b| - 5) + max 0 (|guaranteeB b| - 5)

/-- catastrophicPenalty in scoreBoard. -/
def catastrophicPenalty (b : Board) : Int :=
  (max 0 (-(rowWorstA b 0) - 12) + max 0 (-(rowWorstA b 1) - 12) +
    max 0 (-(rowWorstA b 2) - 12)) +
  (max 0 (-(colWorstB b 0) - 12) + max 0 (-(colWorstB b 1) - 12) +
    max 0 (-(colWorstB b 2) - 12))

/-- std from the source applied to three integers: the population standard
deviation, an exact real. -/
noncomputable def stdR (x y z : Int) : ℝ :=
  let m : ℝ := ((x + y + z : Int) : ℝ) / 3
  Real.sqrt ((((x : ℝ) - m) ^ 2 + ((y : ℝ) - m) ^ 2 + ((z : ℝ) - m) ^ 2) / 3)

/-- The scalar fairness score of scoreBoard (lower is better), with the
source's fixed weights wStd 1.2, wMean 1.2, wSpread 0.15, wExtreme 1.0,
wDominance 1.1, wCatastrophic 0.6 (the 0.6 inside extremePenalty is the
per-cell factor of the source's loop). -/
noncomputable def score (cfg : Cfg) (b : Board) : ℝ :=
  (6 / 5 : ℝ) * (stdR (rowSumA b 0) (rowSumA b 1) (rowSumA b 2) +
    stdR (colSumB b 0) (colSumB b 1) (colSumB b 2)) +
  (6 / 5 : ℝ) * ((|meanA b| : ℚ) + (|meanB b| : ℚ)) +
  (3 / 20 : ℝ) * ((spreadA b + spreadB b : Int) : ℝ) +
  1 * ((extremePenalty cfg b : ℚ) : ℝ) +
  (11 / 10 : ℝ) * ((dominancePenalty b : Int) : ℝ) +
  (3 / 5 : ℝ) * ((catastrophicPenalty b : Int) : ℝ)

/-- Math.round for the exact value of a JavaScript division: round half
toward positive infinity. -/
def jsRound (q : ℚ) : Int := ⌊q + 1 / 2⌋

/-- The rubber-band bias of genFairBoard: score differential over
BIAS_STEP, rounded, clamped to MAX_BIAS in magnitude; zero when
rubber-banding is off. -/
def rubberBias (cfg : Cfg) (scA scB : Int) : Int :=
  if cfg.rubberBand then
    clampZ (jsRound (((scA - scB : Int) : ℚ) / cfg.biasStep)) (-cfg.maxBias) cfg.maxBias
  else 0

/-- The i-th candidate board drawn in genFairBoard's first pass: each
candidate consumes 18 draws, with A biased by minus the rubber-band bias
and B by plus it. -/
def candSeq (cfg : Cfg) (s : Nat → Nat) (scA scB : Int) (i : Nat) : Board :=
  genCandidateBoard (-(rubberBias cfg scA scB)) (rubberBias cfg scA scB)
    (shiftStream s (18 * i))

/-- The i-th candidate board drawn in the fallback second pass, continuing
the stream after the first pass's draws. -/
def cand2Seq (cfg : Cfg) (s : Nat → Nat) (scA scB : Int) (i : Nat) : Board :=
  genCandidateBoard (-(rubberBias cfg scA scB)) (rubberBias cfg scA scB)
    (shiftStream s (18 * (cfg.candidates + i)))

open Classical in
/-- The running-best update of genFairBoard's loops: replace the best
board only when the new candidate scores strictly lower. -/
noncomputable def pickBetter (cfg : Cfg) (pb bd : Board) : Board :=
  if score cfg bd < score cfg pb then bd else pb

/-- The first pass of genFairBoard over the first n candidates: discard
candidates failing the hard constraints, keep the lowest-scoring
survivor. -/
noncomputable def pass1 (cfg : Cfg) (s : Nat → Nat) (scA scB : Int) : Nat → Option Board
  | 0 => none
  | n + 1 =>
    let prev := pass1 cfg s scA scB n
    let bd := candSeq cfg s scA scB n
    if hardOk cfg bd then
      match prev with
      | none => some bd
      | some pb => some (pickBetter cfg pb bd)
    else prev

/-- The fallback second pass over n fresh candidates with no filtering. -/
noncomputable def pass2 (cfg : Cfg) (s : Nat → Nat) (scA scB : Int) : Nat → Option Board
  | 0 => none
  | n + 1 =>
    let prev := pass2 cfg s scA scB n
    let bd := cand2Seq cfg s scA scB n
    match prev with
    | none => some bd
    | some pb => some (pickBetter cfg pb bd)

/-- genFairBoard from the source: pure random draw when fairness is off;
otherwise reject-sampling over CANDIDATES candidates with hard
constraints, then the unfiltered fallback pass; `none` models the
TypeError on best.board if both passes yield nothing (possible only with
a candidate count of zero). -/
noncomputable def genFairBoard (cfg : Cfg) (s : Nat → Nat) (scA scB : Int) : Option Board :=
  if cfg.fairMode = false then some (genPureRandomBoard s)
  else
    match pass1 cfg s scA scB cfg.candidates with
    | some bd => some bd
    | none => pass2 cfg s scA scB cfg.candidates

/-!
The create-room endpoint (app.post /api/rooms) and genRoomId.  The
per-requester cooldown map is restricted to one requester key: `last` is
that key's entry in lastCreateByIp.  genRoomId's unbounded collision-retry
loop is given fuel; each attempt consumes six draws.
-/

/-- The unambiguous room-id alphabet of genRoomId. -/
def alphabetL : List Char :=
  ['A', 'B', 'C', 'D', 'E', 'F', 'G', 'H', 'J', 'K', 'M', 'N', 'P', 'Q', 'R',
   'S', 'T', 'U', 'V', 'W', 'X', 'Y', 'Z', '2', '3', '4', '5', '6', '7', '8', '9']

/-- One character drawn by genRoomId: chars[floor(random * 31)]. -/
def alphaGet (n : Nat) : Char := alphabetL.getD (n % 31) 'A'

/-- genRoomId from the source, for the k-th collision-retry attempt. -/
def genRoomId (s : Nat → Nat) (attempt : Nat) : String :=
  String.mk ((List.range 6).map fun j => alphaGet (s (6 * attempt + j)))

/-- The collision-retry loop of the create handler: regenerate while the
id collides with a live room. -/
def findFreeId (roomIds : List String) (s : Nat → Nat) : Nat → Nat → Option String
  | 0, _ => none
  | fuel + 1, attempt =>
    let id := genRoomId s attempt
    if id ∈ roomIds then findFreeId roomIds s fuel (attempt + 1) else some id

/-- Outcome of a create-room request. -/
inductive CreateRes where
  | rateLimited (wait : Int) : CreateRes
  | created (id : String) : CreateRes
  | failed : CreateRes
deriving DecidableEq

/-- Result of the create-room endpoint: the response plus the updated
cooldown entry and live-room id list. -/
structure CreateOut where
  result : CreateRes
  newLast : Option Int
  newRooms : List String
deriving DecidableEq

/-- The create-room endpoint: rejects with 429 and a retry-after of
ceil((CREATE_COOLDOWN_MS - diff) / 1000) seconds when the requester's last
successful creation is within the cooldown; otherwise stamps the cooldown
map and registers a fresh collision-free id. -/
def createRoom (cooldown now : Int) (last : Option Int) (roomIds : List String)
    (s : Nat → Nat) (fuel : Nat) : CreateOut :=
  if now - last.getD 0 < cooldown then
    { result := CreateRes.rateLimited ⌈((cooldown - (now - last.getD 0) : Int) : ℚ) / 1000⌉
      newLast := last
      newRooms := roomIds }
  else
    match findFreeId roomIds s fuel 0 with
    | none => { result := CreateRes.failed, newLast := some now, newRooms := roomIds }
    | some rid =>
      { result := CreateRes.created rid, newLast := some now, newRooms := rid :: roomIds }

/-!
Definitions used to state the claims: the spec's view of the round state,
decidable predicates over handler outcomes, and concrete sample states and
event traces for witnesses.
-/

/-- The round states named by the spec. -/
inductive RState where
  | Empty : RState
  | Waiting : RState
  | Active : RState
  | Resolving : RState
  | Finished : RState
deriving DecidableEq, Repr

/-- The spec's round state read off a room record, following the spec's
words: `Active` while a game is in progress, `Resolving` while a resolved
round awaits its delayed transition, `Empty`/`Waiting` by seat occupancy
when no game is active, and `Finished` when both seats are occupied with
no active game (the state entered when round 9's resolution completes). -/
def specRoundState (r : Room) : RState :=
  if r.active then
    if r.pendingRound.isEmpty then RState.Active else RState.Resolving
  else if (r.players Team.A).isNone ∧ (r.players Team.B).isNone then RState.Empty
  else if (r.players Team.A).isNone ∨ (r.players Team.B).isNone then RState.Waiting
  else RState.Finished

/-- Whether a pending post-round task is the game-over callback. -/
def isGameOverTask : PendTask → Bool
  | PendTask.gameOverT _ _ _ => true
  | PendTask.nextT => false

/-- The region a room is in from the moment round 9 resolves until a
restart starts a new game: either the game-over callback is the sole
pending round task with both picks still locked in, or the room has
already been deactivated. -/
def afterRound9 (r : Room) : Bool :=
  ((match r.pendingRound with
    | [t] => isGameOverTask t
    | _ => false) && (r.picks Team.A).isSome && (r.picks Team.B).isSome) || !r.active

/-- Whether an emitted message is a pick rejection (errorMsg or
invalidPick). -/
def isFailMsg : Msg → Bool
  | Msg.errorMsg => true
  | Msg.invalidPick _ => true
  | _ => false

/-- Whether an emitted message is a gameStart (emitted exactly when
startGame runs, i.e. on auto-start and restart). -/
def isGameStartMsg : Msg → Bool
  | Msg.gameStart _ => true
  | _ => false

/-- Whether an emitted message is a roundResult (emitted exactly when
finishRound resolves a round). -/
def isRoundResultMsg : Msg → Bool
  | Msg.roundResult _ _ _ => true
  | _ => false

/-- A pick payload that passes the handlers' validation: it coerces via
Number() to 0, 1 or 2. -/
def validPick (v : JSVal) : Prop :=
  ∃ n, toNumber v = some n ∧ (n = 0 ∨ n = 1 ∨ n = 2)

instance (v : JSVal) : Decidable (validPick v) :=
  match h : toNumber v with
  | some m =>
    if hm : m = 0 ∨ m = 1 ∨ m = 2 then isTrue ⟨m, h, hm⟩
    else isFalse (fun hv => by
      obtain ⟨n, hn, hn2⟩ := hv
      rw [h] at hn
      cases hn
      exact hm hn2)
  | none => isFalse (fun hv => by
      obtain ⟨n, hn, _⟩ := hv
      rw [h] at hn
      cases hn)

/-- The failure condition of a pick request targeting seat t: the room id
does not resolve, the room is not active, the requester does not hold the
seat, the coerced index is outside 0..2, or the seat already picked this
round. -/
def pickFailCond (or : Option Room) (t : Team) (sid : Nat) (v : JSVal) : Prop :=
  match or with
  | none => True
  | some r =>
    r.active = false ∨ r.players t ≠ some sid ∨ ¬validPick v ∨ r.picks t ≠ none

instance (or : Option Room) (t : Team) (sid : Nat) (v : JSVal) :
    Decidable (pickFailCond or t sid v) := by
  unfold pickFailCond
  match or with
  | none => exact inferInstance
  | some r => exact inferInstance

/-- Every payoff of the board lies in [-60, 60]. -/
def InRange (b : Board) : Prop :=
  ∀ i j : Fin 3, -60 ≤ (b i j).a ∧ (b i j).a ≤ 60 ∧ -60 ≤ (b i j).b ∧ (b i j).b ≤ 60

/-- The all-zero board, used as the environment's board oracle in concrete
traces. -/
def zeroBoard : Board := fun _ _ => { a := 0, b := 0 }

/-- Two players joining a fresh room (the second join auto-starts the
game). -/
def joinEvents : List Event :=
  [Event.join 1 (some Team.A) zeroBoard, Event.join 2 (some Team.B) zeroBoard]

/-- One full round: both players pick index 0 and the post-round timeout
fires. -/
def roundTrio : List Event :=
  [Event.pickRowE 1 (JSVal.num 0), Event.pickColE 2 (JSVal.num 0),
   Event.roundFire zeroBoard]

/-- Runs n consecutive rounds of pick, pick, fire. -/
def repTrios : Nat → List Event
  | 0 => []
  | n + 1 => roundTrio ++ repTrios n

/-- A complete game: two joins and nine resolved rounds, ending with the
game-over callback firing. -/
def fullGameEvents : List Event := joinEvents ++ repTrios 9

/-- The room state right after both players joined and the game started. -/
def activeRoom : Room :=
  { players := fun t => match t with
      | Team.A => some 1
      | Team.B => some 2
    round := 1
    scores := fun _ => 0
    picks := fun _ => none
    board := some zeroBoard
    active := true
    offlineSince := fun _ => none
    timers := fun _ => none
    pendingRound := [] }

/-- The room state at the end of fullGameEvents: the game is over but the
final board is still attached. -/
def finishedRoom : Room :=
  { activeRoom with round := 9, active := false }

/-- The room state just after round 9 resolved, while the game-over
callback is still pending. -/
def resolvingRoom : Room :=
  { activeRoom with round := 9
                    picks := fun _ => some 0
                    pendingRound := [PendTask.gameOverT 0 0 Winner.draw] }

/-- A sample non-trivial board for concrete resolution checks. -/
def sampleBoard : Board :=
  fun r c => { a := (r.val : Int) * 10 + c.val, b := (r.val : Int) - 2 * c.val }

/-- A sample mid-game room with picks locked in, for concrete resolution
checks. -/
def c1room : Room :=
  { activeRoom with board := some sampleBoard
                    picks := fun t => match t with
                      | Team.A => some 1
                      | Team.B => some 2 }

/-- A one-candidate configuration for concrete generator checks. -/
def oneCandCfg : Cfg := { defaultCfg with candidates := 1 }

/-- A constant draw stream whose raw value 60 makes randInt(-60, 60)
produce 0. -/
def stream60 : Nat → Nat := fun _ => 60

theorem reachable_runEvents {s : Option Room} (h : Reachable s) (es : List Event) :
    Reachable (runEvents s es) := by
  induction es generalizing s with
  | nil => exact h
  | cons e es ih => exact ih (Reachable.step h e)

/-!
Claims.
-/

/-- C1: For every room with a non-null board and picks row r and column c
both in 0..2, resolving the round returns score deltas exactly equal to
the two values of board[r][c], and the room's score totals each increase
by exactly the corresponding delta. -/
theorem claim_C1 (r : Room) (b : Board) (row col : Int) (fr fc : Fin 3)
    (hb : r.board = some b)
    (hr : r.picks Team.A = some row) (hc : r.picks Team.B = some col)
    (hfr : toFin3 row = some fr) (hfc : toFin3 col = some fc) :
    ∃ r1 res, resolveRound r = some (r1, res) ∧
      res.deltaA = (b fr fc).a ∧ res.deltaB = (b fr fc).b ∧
      r1.scores Team.A = r.scores Team.A + (b fr fc).a ∧
      r1.scores Team.B = r.scores Team.B + (b fr fc).b := by
  simp only [resolveRound, hb, hr, hc, hfr, hfc]
  exact ⟨_, _, rfl, rfl, rfl, rfl, rfl⟩

/-- Witness for C1 at a concrete mid-game room. -/
theorem claim_C1_witness :
    ∃ r1 res, resolveRound c1room = some (r1, res) ∧
      res.deltaA = (sampleBoard 1 2).a ∧ res.deltaB = (sampleBoard 1 2).b ∧
      r1.scores Team.A = c1room.scores Team.A + (sampleBoard 1 2).a ∧
      r1.scores Team.B = c1room.scores Team.B + (sampleBoard 1 2).b :=
  claim_C1 c1room sampleBoard 1 2 1 2 rfl rfl rfl (by decide) (by decide)

theorem randIntAt_range (s : Nat → Nat) (k : Nat) :
    -60 ≤ randIntAt s k (-60) 60 ∧ randIntAt s k (-60) 60 ≤ 60 := by
  unfold randIntAt
  rw [show ((60 : Int) - (-60) + 1).toNat = 121 from rfl]
  have h : s k % 121 < 121 := Nat.mod_lt _ (by norm_num)
  omega

theorem clampZ_range (v : Int) : -60 ≤ clampZ v (-60) 60 ∧ clampZ v (-60) 60 ≤ 60 := by
  unfold clampZ
  omega

theorem genPureRandomBoard_inRange (s : Nat → Nat) : InRange (genPureRandomBoard s) := by
  intro i j
  show -60 ≤ randIntAt s _ (-60) 60 ∧ randIntAt s _ (-60) 60 ≤ 60 ∧
    -60 ≤ randIntAt s _ (-60) 60 ∧ randIntAt s _ (-60) 60 ≤ 60
  exact ⟨(randIntAt_range s _).1, (randIntAt_range s _).2,
    (randIntAt_range s _).1, (randIntAt_range s _).2⟩

theorem genCandidateBoard_inRange (bA bB : Int) (s : Nat → Nat) :
    InRange (genCandidateBoard bA bB s) := by
  intro i j
  exact ⟨(clampZ_range _).1, (clampZ_range _).2, (clampZ_range _).1, (clampZ_range _).2⟩

theorem pass1_sound (cfg : Cfg) (s : Nat → Nat) (scA scB : Int) :
    ∀ n bd, pass1 cfg s scA scB n = some bd →
      hardOk cfg bd ∧ ∃ i, i < n ∧ bd = candSeq cfg s scA scB i := by
  intro n
  induction n with
  | zero => intro bd h; simp [pass1] at h
  | succ n ih =>
    intro bd h
    simp only [pass1] at h
    split at h
    · rename_i hok
      split at h
      · rename_i hprev
        cases h
        exact ⟨hok, n, Nat.lt_succ_self n, rfl⟩
      · rename_i pb hprev
        cases h
        unfold pickBetter
        split
        · exact ⟨hok, n, Nat.lt_succ_self n, rfl⟩
        · obtain ⟨h1, i, hi, h2⟩ := ih pb hprev
          exact ⟨h1, i, Nat.lt_succ_of_lt hi, h2⟩
    · obtain ⟨h1, i, hi, h2⟩ := ih bd h
      exact ⟨h1, i, Nat.lt_succ_of_lt hi, h2⟩

theorem pass1_isSome (cfg : Cfg) (s : Nat → Nat) (scA scB : Int) :
    ∀ n, (∃ i, i < n ∧ hardOk cfg (candSeq cfg s scA scB i)) →
      (pass1 cfg s scA scB n).isSome := by
  intro n
  induction n with
  | zero => rintro ⟨i, hi, _⟩; omega
  | succ n ih =>
    rintro ⟨i, hi, hok⟩
    simp only [pass1]
    split
    · split
      · simp
      · simp
    · rename_i hnok
      have hin : i < n := by
        rcases Nat.lt_succ_iff_lt_or_eq.mp hi with h | h
        · exact h
        · exact absurd (h ▸ hok) hnok
      exact ih ⟨i, hin, hok⟩

theorem pass1_min (cfg : Cfg) (s : Nat → Nat) (scA scB : Int) :
    ∀ n bd, pass1 cfg s scA scB n = some bd →
      ∀ i, i < n → hardOk cfg (candSeq cfg s scA scB i) →
        score cfg bd ≤ score cfg (candSeq cfg s scA scB i) := by
  intro n
  induction n with
  | zero => intro bd h; simp [pass1] at h
  | succ n ih =>
    intro bd h i hi hok
    simp only [pass1] at h
    rcases Nat.lt_succ_iff_lt_or_eq.mp hi with hin | rfl
    · split at h
      · split at h
        · rename_i hprev
          exfalso
          have := pass1_isSome cfg s scA scB n ⟨i, hin, hok⟩
          rw [hprev] at this
          simp at this
        · rename_i pb hprev
          cases h
          unfold pickBetter
          split
          · rename_i hlt
            exact le_of_lt (lt_of_lt_of_le hlt (ih pb hprev i hin hok))
          · exact ih pb hprev i hin hok
      · exact ih bd h i hin hok
    · split at h
      · split at h
        · cases h
          exact le_refl _
        · rename_i pb hprev
          cases h
          unfold pickBetter
          split
          · exact le_refl _
          · rename_i hnlt
            exact le_of_not_lt hnlt
      · rename_i hnok
        exact absurd hok hnok

theorem pass2_sound (cfg : Cfg) (s : Nat → Nat) (scA scB : Int) :
    ∀ n bd, pass2 cfg s scA scB n = some bd →
      ∃ i, i < n ∧ bd = cand2Seq cfg s scA scB i := by
  intro n
  induction n with
  | zero => intro bd h; simp [pass2] at h
  | succ n ih =>
    intro bd h
    simp only [pass2] at h
    split at h
    · cases h
      exact ⟨n, Nat.lt_succ_self n, rfl⟩
    · rename_i pb hprev
      cases h
      unfold pickBetter
      split
      · exact ⟨n, Nat.lt_succ_self n, rfl⟩
      · obtain ⟨i, hi, h2⟩ := ih pb hprev
        exact ⟨i, Nat.lt_succ_of_lt hi, h2⟩

theorem pass2_isSome (cfg : Cfg) (s : Nat → Nat) (scA scB : Int) :
    ∀ n, 0 < n → (pass2 cfg s scA scB n).isSome := by
  intro n hn
  cases n with
  | zero => omega
  | succ n =>
    simp only [pass2]
    split <;> simp

/-- C4: Every board returned by the generator, in both fairness mode and
pure-random mode and for any bias input, is a 3x3 grid whose every cell
payoff lies in [-60, 60] inclusive. -/
theorem claim_C4 :
    (∀ s, InRange (genPureRandomBoard s)) ∧
    (∀ bA bB s, InRange (genCandidateBoard bA bB s)) ∧
    (∀ cfg s scA scB, (genFairBoard cfg s scA scB).elim True InRange) := by
  refine ⟨genPureRandomBoard_inRange, genCandidateBoard_inRange, ?_⟩
  intro cfg s scA scB
  unfold genFairBoard
  split
  · exact genPureRandomBoard_inRange s
  · split
    · rename_i bd hp
      obtain ⟨_, i, _, h2⟩ := pass1_sound cfg s scA scB cfg.candidates bd hp
      subst h2
      exact genCandidateBoard_inRange _ _ _
    · cases hp2 : pass2 cfg s scA scB cfg.candidates with
      | none => exact trivial
      | some bd =>
        obtain ⟨i, _, h2⟩ := pass2_sound cfg s scA scB cfg.candidates bd hp2
        subst h2
        exact genCandidateBoard_inRange _ _ _

/-- C5: Under fairness mode, if at least one candidate board drawn in the
first pass satisfies the hard constraints, then the returned board
satisfies them too and has the lowest fairness score among the surviving
candidates; and with a positive candidate count the generator always
returns some board (the fallback pass never fails). -/
theorem claim_C5 (cfg : Cfg) (s : Nat → Nat) (scA scB : Int)
    (hf : cfg.fairMode = true) :
    ((∃ i, i < cfg.candidates ∧ hardOk cfg (candSeq cfg s scA scB i)) →
      ∃ bd, genFairBoard cfg s scA scB = some bd ∧ hardOk cfg bd ∧
        ∀ i, i < cfg.candidates → hardOk cfg (candSeq cfg s scA scB i) →
          score cfg bd ≤ score cfg (candSeq cfg s scA scB i)) ∧
    (0 < cfg.candidates → ∃ bd, genFairBoard cfg s scA scB = some bd) := by
  unfold genFairBoard
  rw [hf]
  simp only [Bool.true_eq_false, if_false]
  cases hp : pass1 cfg s scA scB cfg.candidates with
  | some bd =>
    constructor
    · intro _
      exact ⟨bd, rfl, (pass1_sound cfg s scA scB _ bd hp).1,
        pass1_min cfg s scA scB _ bd hp⟩
    · intro _
      exact ⟨bd, rfl⟩
  | none =>
    constructor
    · intro hex
      exfalso
      have := pass1_isSome cfg s scA scB cfg.candidates hex
      rw [hp] at this
      simp at this
    · intro hn
      have := pass2_isSome cfg s scA scB cfg.candidates hn
      cases hp2 : pass2 cfg s scA scB cfg.candidates with
      | none => rw [hp2] at this; simp at this
      | some bd => exact ⟨bd, rfl⟩

/-- Witness for C5 with a one-candidate configuration whose single
candidate (an all-zero board) passes the hard constraints. -/
theorem claim_C5_witness :
    ∃ bd, genFairBoard oneCandCfg stream60 0 0 = some bd ∧ hardOk oneCandCfg bd := by
  have hbias : rubberBias oneCandCfg 0 0 = 0 := by
    unfold rubberBias jsRound clampZ oneCandCfg defaultCfg
    norm_num
  have hcand : candSeq oneCandCfg stream60 0 0 0 = zeroBoard := by
    unfold candSeq
    rw [hbias]
    decide
  have hok : hardOk oneCandCfg (candSeq oneCandCfg stream60 0 0 0) := by
    rw [hcand]
    unfold hardOk meanA meanB spreadA spreadB rowSumA colSumB zeroBoard oneCandCfg defaultCfg
    norm_num
  obtain ⟨bd, h1, h2, _⟩ :=
    (claim_C5 oneCandCfg stream60 0 0 rfl).1 ⟨0, by decide, hok⟩
  exact ⟨bd, h1, h2⟩

/-- C6: The rubber-band bias is the score differential divided by the
configured step, rounded to nearest and clamped to the configured
maximum; its magnitude never exceeds that maximum regardless of the
differential, the bias is directed against the leader, and every
candidate cell applies minus the bias to the row-chooser's value and plus
the bias to the column-chooser's value before clamping. -/
theorem claim_C6 (cfg : Cfg) (scA scB : Int) (hrb : cfg.rubberBand = true)
    (hmb : 0 ≤ cfg.maxBias) (hstep : 0 < cfg.biasStep) :
    rubberBias cfg scA scB =
      clampZ (jsRound (((scA - scB : Int) : ℚ) / cfg.biasStep)) (-cfg.maxBias) cfg.maxBias ∧
    |rubberBias cfg scA scB| ≤ cfg.maxBias ∧
    (0 ≤ scA - scB → 0 ≤ rubberBias cfg scA scB) ∧
    (scA - scB ≤ 0 → rubberBias cfg scA scB ≤ 0) ∧
    (∀ s i r c, (candSeq cfg s scA scB i r c).a =
        clampZ (randIntAt (shiftStream s (18 * i)) (2 * (3 * r.val + c.val)) (-60) 60 +
          -(rubberBias cfg scA scB)) (-60) 60 ∧
      (candSeq cfg s scA scB i r c).b =
        clampZ (randIntAt (shiftStream s (18 * i)) (2 * (3 * r.val + c.val) + 1) (-60) 60 +
          rubberBias cfg scA scB) (-60) 60) := by
  refine ⟨by rw [rubberBias, if_pos hrb], ?_, ?_, ?_, fun s i r c => ⟨rfl, rfl⟩⟩
  · rw [abs_le]
    unfold rubberBias clampZ
    rw [if_pos hrb]
    constructor <;> omega
  · intro hd
    have hq : 0 ≤ ((scA - scB : Int) : ℚ) / cfg.biasStep :=
      div_nonneg (by exact_mod_cast hd) (le_of_lt hstep)
    have hj : 0 ≤ jsRound (((scA - scB : Int) : ℚ) / cfg.biasStep) := by
      unfold jsRound
      have : (0 : ℚ) ≤ ((scA - scB : Int) : ℚ) / cfg.biasStep + 1 / 2 := by linarith
      exact Int.le_floor.mpr (by exact_mod_cast this)
    unfold rubberBias clampZ
    rw [if_pos hrb]
    omega
  · intro hd
    have hq : ((scA - scB : Int) : ℚ) / cfg.biasStep ≤ 0 :=
      div_nonpos_of_nonpos_of_nonneg (by exact_mod_cast hd) (le_of_lt hstep)
    have hj : jsRound (((scA - scB : Int) : ℚ) / cfg.biasStep) ≤ 0 := by
      unfold jsRound
      have h12 : ⌊((scA - scB : Int) : ℚ) / cfg.biasStep + 1 / 2⌋ < 1 := by
        rw [Int.floor_lt]
        push_cast at hq ⊢
        linarith
      omega
    unfold rubberBias clampZ
    rw [if_pos hrb]
    omega

/-- Witness for C6 at the default configuration with a 100-point lead. -/
theorem claim_C6_witness :
    |rubberBias defaultCfg 100 0| ≤ defaultCfg.maxBias ∧
      (0 ≤ (100 : Int) - 0 → 0 ≤ rubberBias defaultCfg 100 0) := by
  have h := claim_C6 defaultCfg 100 0 rfl (by decide) (by norm_num [defaultCfg])
  exact ⟨h.2.1, h.2.2.1⟩

theorem genRoomId_length (s : Nat → Nat) (k : Nat) : (genRoomId s k).length = 6 := by
  simp [genRoomId, String.length]

theorem alphaGet_mem (n : Nat) : alphaGet n ∈ alphabetL := by
  unfold alphaGet
  have h : n % 31 < alphabetL.length := by
    have : n % 31 < 31 := Nat.mod_lt _ (by norm_num)
    simpa [alphabetL] using this
  rw [List.getD_eq_getElem alphabetL 'A' h]
  exact List.getElem_mem h

theorem genRoomId_chars (s : Nat → Nat) (k : Nat) :
    ∀ ch ∈ (genRoomId s k).toList, ch ∈ alphabetL := by
  intro ch hch
  have h2 : ch ∈ (List.range 6).map (fun j => alphaGet (s (6 * k + j))) := hch
  obtain ⟨j, _, rfl⟩ := List.mem_map.mp h2
  exact alphaGet_mem _

theorem findFreeId_spec (roomIds : List String) (s : Nat → Nat) :
    ∀ fuel k rid, findFreeId roomIds s fuel k = some rid →
      rid ∉ roomIds ∧ ∃ j, rid = genRoomId s j := by
  intro fuel
  induction fuel with
  | zero => intro k rid h; simp [findFreeId] at h
  | succ n ih =>
    intro k rid h
    simp only [findFreeId] at h
    split at h
    · exact ih (k + 1) rid h
    · rename_i hnotin
      cases h
      exact ⟨hnotin, k, rfl⟩

/-- C9: A create-room request is rejected with a rate-limited result
carrying a positive retry-after duration exactly when the same requester
key created a room within the configured cooldown window; a rejected
request refreshes neither the cooldown stamp nor the room list, and an
accepted request registers a 6-character id drawn from the unambiguous
alphabet that differs from every live room id. -/
theorem claim_C9 (cooldown now : Int) (last : Option Int) (roomIds : List String)
    (s : Nat → Nat) (fuel : Nat) (hclock : cooldown ≤ now) :
    ((∃ w, (createRoom cooldown now last roomIds s fuel).result = CreateRes.rateLimited w) ↔
      ∃ t, last = some t ∧ now - t < cooldown) ∧
    (∀ w, (createRoom cooldown now last roomIds s fuel).result = CreateRes.rateLimited w →
      0 < w ∧ (createRoom cooldown now last roomIds s fuel).newLast = last ∧
        (createRoom cooldown now last roomIds s fuel).newRooms = roomIds) ∧
    (∀ rid, (createRoom cooldown now last roomIds s fuel).result = CreateRes.created rid →
      rid.length = 6 ∧ (∀ ch ∈ rid.toList, ch ∈ alphabetL) ∧ rid ∉ roomIds ∧
        (createRoom cooldown now last roomIds s fuel).newRooms = rid :: roomIds ∧
        (createRoom cooldown now last roomIds s fuel).newLast = some now) := by
  unfold createRoom
  by_cases hlt : now - last.getD 0 < cooldown
  · rw [if_pos hlt]
    refine ⟨⟨fun _ => ?_, fun _ => ⟨_, rfl⟩⟩, ?_, ?_⟩
    · cases last with
      | none =>
        exfalso
        simp only [Option.getD_none] at hlt
        omega
      | some t =>
        exact ⟨t, rfl, by simpa using hlt⟩
    · intro w hw
      cases hw
      refine ⟨?_, rfl, rfl⟩
      have hnum : (0 : Int) < cooldown - (now - last.getD 0) := by omega
      have hpos : (0 : ℚ) < ((cooldown - (now - last.getD 0) : Int) : ℚ) / 1000 :=
        div_pos (by exact_mod_cast hnum) (by norm_num)
      exact Int.ceil_pos.mpr hpos
    · intro rid hrid
      cases hrid
  · rw [if_neg hlt]
    cases hf : findFreeId roomIds s fuel 0 with
    | none =>
      refine ⟨⟨fun hw => ?_, fun ht => ?_⟩, fun w hw => ?_, fun rid hrid => ?_⟩
      · obtain ⟨w, hw⟩ := hw
        cases hw
      · obtain ⟨t, ht, hlt2⟩ := ht
        exfalso
        rw [ht] at hlt
        simp only [Option.getD_some] at hlt
        omega
      · cases hw
      · cases hrid
    | some rid0 =>
      refine ⟨⟨fun hw => ?_, fun ht => ?_⟩, fun w hw => ?_, fun rid hrid => ?_⟩
      · obtain ⟨w, hw⟩ := hw
        cases hw
      · obtain ⟨t, ht, hlt2⟩ := ht
        exfalso
        rw [ht] at hlt
        simp only [Option.getD_some] at hlt
        omega
      · cases hw
      · cases hrid
        obtain ⟨hnotin, j, hj⟩ := findFreeId_spec roomIds s fuel 0 rid0 hf
        subst hj
        exact ⟨genRoomId_length s j, genRoomId_chars s j, hnotin, rfl, rfl⟩

/-- Witness for C9 at a concrete accepted request. -/
theorem claim_C9_witness :
    ("AAAAAA" : String).length = 6 ∧ ("AAAAAA" : String) ∉ ([] : List String) ∧
      (createRoom 3000 5000 none [] (fun _ => 0) 1).newRooms = ["AAAAAA"] ∧
      (createRoom 3000 5000 none [] (fun _ => 0) 1).newLast = some 5000 := by
  have h := (claim_C9 3000 5000 none [] (fun _ => 0) 1 (by decide)).2.2 "AAAAAA" rfl
  exact ⟨h.1, h.2.2.1, h.2.2.2.1, h.2.2.2.2⟩

theorem resolveRound_fields (r : Room) (p : Room × RoundRes) (h : resolveRound r = some p) :
    p.1.players = r.players ∧ p.1.round = r.round ∧ p.1.picks = r.picks ∧
      p.1.board = r.board ∧ p.1.active = r.active ∧
      p.1.offlineSince = r.offlineSince ∧ p.1.timers = r.timers ∧
      p.1.pendingRound = r.pendingRound := by
  unfold resolveRound at h
  split at h
  · split at h
    · cases h
      exact ⟨rfl, rfl, rfl, rfl, rfl, rfl, rfl, rfl⟩
    · cases h
  · cases h

theorem finishRound_fields (r : Room) :
    (finishRound r).1.players = r.players ∧ (finishRound r).1.round = r.round ∧
      (finishRound r).1.picks = r.picks ∧ (finishRound r).1.board = r.board ∧
      (finishRound r).1.active = r.active ∧
      (finishRound r).1.offlineSince = r.offlineSince ∧
      (finishRound r).1.timers = r.timers := by
  unfold finishRound
  split
  · exact ⟨rfl, rfl, rfl, rfl, rfl, rfl, rfl⟩
  · rename_i r1 res hres
    obtain ⟨h1, h2, h3, h4, h5, h6, h7, h8⟩ := resolveRound_fields r (r1, res) hres
    split
    · exact ⟨h1, h2, h3, h4, h5, h6, h7⟩
    · exact ⟨h1, h2, h3, h4, h5, h6, h7⟩

/-- C10 counterexample: a pickRow request from seat A's holder in an
Active room whose row field is absent (undefined) is rejected with
invalidPick and no pick is recorded, contradicting the claim that an
absent field coerces to 0 and is accepted as a pick of row 0. -/
theorem claim_C10_counterexample :
    activeRoom.active = true ∧ activeRoom.players Team.A = some 1 ∧
      activeRoom.picks Team.A = none ∧
      (pickRow activeRoom 1 JSVal.undef).1.picks Team.A = none ∧
      (pickRow activeRoom 1 JSVal.undef).2.all isFailMsg = true := by
  exact ⟨rfl, rfl, rfl, rfl, rfl⟩

/-- C10 (amended): The pick handlers coerce the incoming index with
Number() before range-checking, so inputs that are not number-typed but
coerce to 0, 1 or 2 are accepted as valid picks; in particular a null row
field coerces to 0 and is recorded as a pick of row 0, and the numeric
strings "0", "1", "2" are likewise accepted; an absent (undefined) field,
however, coerces to NaN and is rejected with invalidPick. -/
theorem claim_C10 (r : Room) (sid : Nat)
    (hact : r.active = true) (hpl : r.players Team.A = some sid)
    (hpk : r.picks Team.A = none) :
    toNumber JSVal.null = some 0 ∧
    toNumber (JSVal.str "0") = some 0 ∧ toNumber (JSVal.str "1") = some 1 ∧
    toNumber (JSVal.str "2") = some 2 ∧
    (∀ v n, toNumber v = some n → (n = 0 ∨ n = 1 ∨ n = 2) →
      (pickRow r sid v).1.picks Team.A = some n) ∧
    pickRow r sid JSVal.undef = (r, [Msg.invalidPick (publicState r)]) := by
  refine ⟨rfl, by decide, by decide, by decide, ?_, ?_⟩
  · intro v n hv hn
    unfold pickRow
    rw [if_neg (by simp [hact]), if_neg (by simp [hpl])]
    simp only [hv]
    rw [if_neg (not_not_intro hn), if_neg (by simp [hpk])]
    split
    · show (finishRound _).1.picks Team.A = some n
      rw [(finishRound_fields _).2.2.1]
      simp [setT]
    · simp [setT]
  · unfold pickRow
    rw [if_neg (by simp [hact]), if_neg (by simp [hpl])]
    rfl

/-- Witness for the amended C10 at a concrete active room. -/
theorem claim_C10_witness :
    (pickRow activeRoom 1 JSVal.null).1.picks Team.A = some 0 ∧
      (pickRow activeRoom 1 (JSVal.str "2")).1.picks Team.A = some 2 := by
  have h := claim_C10 activeRoom 1 rfl rfl rfl
  exact ⟨h.2.2.2.2.1 JSVal.null 0 rfl (Or.inl rfl),
    h.2.2.2.2.1 (JSVal.str "2") 2 (by decide) (by tauto)⟩

theorem finishRound_msgs_noFail (r : Room) :
    (finishRound r).2.any isFailMsg = false := by
  unfold finishRound
  split
  · rfl
  · split <;> rfl

theorem pickRow_correct (r : Room) (sid : Nat) (v : JSVal) :
    ((pickRow r sid v).2.any isFailMsg = true ↔ pickFailCond (some r) Team.A sid v) ∧
    (pickFailCond (some r) Team.A sid v → (pickRow r sid v).1 = r) ∧
    (¬pickFailCond (some r) Team.A sid v →
      ∃ n, toNumber v = some n ∧ (pickRow r sid v).1.picks Team.A = some n) := by
  unfold pickRow
  by_cases h1 : r.active = false
  · rw [if_pos h1]
    exact ⟨⟨fun _ => Or.inl h1, fun _ => rfl⟩, fun _ => rfl,
      fun hD => absurd (Or.inl h1) hD⟩
  · rw [if_neg h1]
    by_cases h2 : r.players Team.A ≠ some sid
    · rw [if_pos h2]
      exact ⟨⟨fun _ => Or.inr (Or.inl h2), fun _ => rfl⟩, fun _ => rfl,
        fun hD => absurd (Or.inr (Or.inl h2)) hD⟩
    · rw [if_neg h2]
      cases hv : toNumber v with
      | none =>
        have hnv : ¬validPick v := by
          rintro ⟨n, hn, _⟩
          rw [hv] at hn
          cases hn
        simp only [hv]
        exact ⟨⟨fun _ => Or.inr (Or.inr (Or.inl hnv)), fun _ => rfl⟩, fun _ => trivial,
          fun hD => absurd (Or.inr (Or.inr (Or.inl hnv))) hD⟩
      | some n =>
        simp only [hv]
        by_cases h3 : ¬(n = 0 ∨ n = 1 ∨ n = 2)
        · have hnv : ¬validPick v := by
            rintro ⟨m, hm, hdig⟩
            rw [hv] at hm
            cases hm
            exact h3 hdig
          rw [if_pos h3]
          exact ⟨⟨fun _ => Or.inr (Or.inr (Or.inl hnv)), fun _ => rfl⟩, fun _ => rfl,
            fun hD => absurd (Or.inr (Or.inr (Or.inl hnv))) hD⟩
        · rw [if_neg h3]
          by_cases h4 : r.picks Team.A ≠ none
          · rw [if_pos h4]
            exact ⟨⟨fun _ => Or.inr (Or.inr (Or.inr h4)), fun _ => rfl⟩, fun _ => rfl,
              fun hD => absurd (Or.inr (Or.inr (Or.inr h4))) hD⟩
          · rw [if_neg h4]
            have hND : ¬pickFailCond (some r) Team.A sid v := by
              rintro (h | h | h | h)
              · exact h1 h
              · exact h2 h
              · exact h ⟨n, hv, not_not.mp h3⟩
              · exact h4 h
            refine ⟨⟨fun hany => absurd ?_ hND, fun hD => absurd hD hND⟩,
              fun hD => absurd hD hND, fun _ => ⟨n, rfl, ?_⟩⟩
            · exfalso
              revert hany
              split
              · simp [finishRound_msgs_noFail, isFailMsg]
              · simp [isFailMsg]
            · split
              · show (finishRound _).1.picks Team.A = some n
                rw [(finishRound_fields _).2.2.1]
                simp [setT]
              · simp [setT]

theorem pickCol_correct (r : Room) (sid : Nat) (v : JSVal) :
    ((pickCol r sid v).2.any isFailMsg = true ↔ pickFailCond (some r) Team.B sid v) ∧
    (pickFailCond (some r) Team.B sid v → (pickCol r sid v).1 = r) ∧
    (¬pickFailCond (some r) Team.B sid v →
      ∃ n, toNumber v = some n ∧ (pickCol r sid v).1.picks Team.B = some n) := by
  unfold pickCol
  by_cases h1 : r.active = false
  · rw [if_pos h1]
    exact ⟨⟨fun _ => Or.inl h1, fun _ => rfl⟩, fun _ => rfl,
      fun hD => absurd (Or.inl h1) hD⟩
  · rw [if_neg h1]
    by_cases h2 : r.players Team.B ≠ some sid
    · rw [if_pos h2]
      exact ⟨⟨fun _ => Or.inr (Or.inl h2), fun _ => rfl⟩, fun _ => rfl,
        fun hD => absurd (Or.inr (Or.inl h2)) hD⟩
    · rw [if_neg h2]
      cases hv : toNumber v with
      | none =>
        have hnv : ¬validPick v := by
          rintro ⟨n, hn, _⟩
          rw [hv] at hn
          cases hn
        simp only [hv]
        exact ⟨⟨fun _ => Or.inr (Or.inr (Or.inl hnv)), fun _ => rfl⟩, fun _ => trivial,
          fun hD => absurd (Or.inr (Or.inr (Or.inl hnv))) hD⟩
      | some n =>
        simp only [hv]
        by_cases h3 : ¬(n = 0 ∨ n = 1 ∨ n = 2)
        · have hnv : ¬validPick v := by
            rintro ⟨m, hm, hdig⟩
            rw [hv] at hm
            cases hm
            exact h3 hdig
          rw [if_pos h3]
          exact ⟨⟨fun _ => Or.inr (Or.inr (Or.inl hnv)), fun _ => rfl⟩, fun _ => rfl,
            fun hD => absurd (Or.inr (Or.inr (Or.inl hnv))) hD⟩
        · rw [if_neg h3]
          by_cases h4 : r.picks Team.B ≠ none
          · rw [if_pos h4]
            exact ⟨⟨fun _ => Or.inr (Or.inr (Or.inr h4)), fun _ => rfl⟩, fun _ => rfl,
              fun hD => absurd (Or.inr (Or.inr (Or.inr h4))) hD⟩
          · rw [if_neg h4]
            have hND : ¬pickFailCond (some r) Team.B sid v := by
              rintro (h | h | h | h)
              · exact h1 h
              · exact h2 h
              · exact h ⟨n, hv, not_not.mp h3⟩
              · exact h4 h
            refine ⟨⟨fun hany => absurd ?_ hND, fun hD => absurd hD hND⟩,
              fun hD => absurd hD hND, fun _ => ⟨n, rfl, ?_⟩⟩
            · exfalso
              revert hany
              split
              · simp [finishRound_msgs_noFail, isFailMsg]
              · simp [isFailMsg]
            · split
              · show (finishRound _).1.picks Team.B = some n
                rw [(finishRound_fields _).2.2.1]
                simp [setT]
              · simp [setT]

/-- C8: A pick request fails, producing an error or invalidPick event and
leaving the room unchanged, exactly when the room id does not resolve to a
live room, the room is not Active, the requesting identity does not hold
the corresponding role, the coerced pick index is outside 0..2, or a pick
for that role already exists this round; otherwise the pick is
recorded. -/
theorem claim_C8 (or : Option Room) (sid : Nat) (v : JSVal) :
    (((stepSrv or (Event.pickRowE sid v)).2.any isFailMsg = true) ↔
      pickFailCond or Team.A sid v) ∧
    (pickFailCond or Team.A sid v → (stepSrv or (Event.pickRowE sid v)).1 = or) ∧
    (¬pickFailCond or Team.A sid v →
      ∃ r n r1, or = some r ∧ toNumber v = some n ∧
        (stepSrv or (Event.pickRowE sid v)).1 = some r1 ∧ r1.picks Team.A = some n) ∧
    (((stepSrv or (Event.pickColE sid v)).2.any isFailMsg = true) ↔
      pickFailCond or Team.B sid v) ∧
    (pickFailCond or Team.B sid v → (stepSrv or (Event.pickColE sid v)).1 = or) ∧
    (¬pickFailCond or Team.B sid v →
      ∃ r n r1, or = some r ∧ toNumber v = some n ∧
        (stepSrv or (Event.pickColE sid v)).1 = some r1 ∧ r1.picks Team.B = some n) := by
  cases or with
  | none =>
    refine ⟨⟨fun _ => trivial, fun _ => rfl⟩, fun _ => rfl, fun hD => absurd trivial hD,
      ⟨fun _ => trivial, fun _ => rfl⟩, fun _ => rfl, fun hD => absurd trivial hD⟩
  | some r =>
    obtain ⟨hr1, hr2, hr3⟩ := pickRow_correct r sid v
    obtain ⟨hc1, hc2, hc3⟩ := pickCol_correct r sid v
    refine ⟨hr1, fun hD => congrArg some (hr2 hD), fun hD => ?_,
      hc1, fun hD => congrArg some (hc2 hD), fun hD => ?_⟩
    · obtain ⟨n, hn, hpk⟩ := hr3 hD
      exact ⟨r, n, (pickRow r sid v).1, rfl, hn, rfl, hpk⟩
    · obtain ⟨n, hn, hpk⟩ := hc3 hD
      exact ⟨r, n, (pickCol r sid v).1, rfl, hn, rfl, hpk⟩

/-- Witness for C8: an out-of-range numeric pick in a live active room is
rejected without mutating the room. -/
theorem claim_C8_witness :
    (stepSrv (some activeRoom) (Event.pickRowE 1 (JSVal.num 5))).1 = some activeRoom :=
  (claim_C8 (some activeRoom) 1 (JSVal.num 5)).2.1
    (Or.inr (Or.inr (Or.inl (fun hvp => by
      obtain ⟨n, hn, hd⟩ := hvp
      cases hn
      exact absurd hd (by decide)))))


theorem setT_same {α : Type} (f : Team → α) (t : Team) (v : α) : setT f t v t = v := by
  simp [setT]

theorem setT_other {α : Type} (f : Team → α) (t : Team) (v : α) (t' : Team)
    (h : t' ≠ t) : setT f t v t' = f t' := by
  simp [setT, h]

theorem otherTeam_ne (t : Team) : otherTeam t ≠ t := by
  cases t <;> decide

theorem onDisconnect_fields (r : Room) (t : Team) (sid : Nat) (time : Int)
    (hpl : r.players t = some sid) (hother : r.players (otherTeam t) ≠ some sid) :
    (onDisconnect r sid time).1.players t = none ∧
    (onDisconnect r sid time).1.players (otherTeam t) = r.players (otherTeam t) ∧
    (onDisconnect r sid time).1.timers t = some time ∧
    (onDisconnect r sid time).1.round = r.round ∧
    (onDisconnect r sid time).1.scores = r.scores ∧
    (onDisconnect r sid time).1.picks = r.picks ∧
    (onDisconnect r sid time).1.board = r.board ∧
    (onDisconnect r sid time).1.active = r.active ∧
    (onDisconnect r sid time).2 =
      [Msg.roomState (publicState (onDisconnect r sid time).1), Msg.opponentDisconnected] := by
  have hts : ([Team.A, Team.B].filter (fun tm => r.players tm = some sid)) = [t] := by
    cases t
    · have hB : ¬(r.players Team.B = some sid) := by
        intro h
        exact hother (by simpa [otherTeam] using h)
      simp [List.filter, hpl, hB]
    · have hA : ¬(r.players Team.A = some sid) := by
        intro h
        exact hother (by simpa [otherTeam] using h)
      simp [List.filter, hpl, hA]
  unfold onDisconnect
  rw [hts]
  refine ⟨?_, ?_, ?_, rfl, rfl, rfl, rfl, rfl, rfl⟩
  · simp [clearDisconnectTimer, setT_same]
  · simp [clearDisconnectTimer, setT_other _ _ _ _ (otherTeam_ne t)]
  · simp [clearDisconnectTimer, setT_same]

theorem joinRoom_rejoin_fields (r : Room) (t : Team) (sid2 : Nat) (b : Board)
    (hfree : r.players t = none) (hact : r.active = true) :
    (joinRoom r sid2 (some t) b).1.players t = some sid2 ∧
    (joinRoom r sid2 (some t) b).1.timers t = none ∧
    (joinRoom r sid2 (some t) b).1.offlineSince t = none ∧
    (joinRoom r sid2 (some t) b).1.round = r.round ∧
    (joinRoom r sid2 (some t) b).1.scores = r.scores ∧
    (joinRoom r sid2 (some t) b).1.picks = r.picks ∧
    (joinRoom r sid2 (some t) b).1.board = r.board ∧
    (joinRoom r sid2 (some t) b).1.active = true ∧
    Msg.opponentLeft ∉ (joinRoom r sid2 (some t) b).2 ∧
    (∀ st, Msg.gameStart st ∉ (joinRoom r sid2 (some t) b).2) := by
  simp only [joinRoom, hfree]
  unfold joinRoomBody
  split
  · rename_i hcase
    have hact3 : (clearDisconnectTimer
        { ({ r with players := setT r.players (otherTeam t) none } : Room) with
          players := setT (setT r.players (otherTeam t) none) t (some sid2) } t).active = true := hact
    rw [if_neg (by simp [hact3])]
    split
    · refine ⟨?_, ?_, ?_, rfl, rfl, rfl, rfl, hact, by simp, by simp⟩
      · simp [clearDisconnectTimer, setT_same, setT_other _ _ _ _ (otherTeam_ne t)]
      · simp [clearDisconnectTimer, setT_same]
      · simp [clearDisconnectTimer, setT_same]
    · refine ⟨?_, ?_, ?_, rfl, rfl, rfl, rfl, hact, by simp, by simp⟩
      · simp [clearDisconnectTimer, setT_same, setT_other _ _ _ _ (otherTeam_ne t)]
      · simp [clearDisconnectTimer, setT_same]
      · simp [clearDisconnectTimer, setT_same]
  · rename_i hcase
    have hact3 : (clearDisconnectTimer
        { r with players := setT r.players t (some sid2) } t).active = true := hact
    rw [if_neg (by simp [hact3])]
    split
    · refine ⟨?_, ?_, ?_, rfl, rfl, rfl, rfl, hact, by simp, by simp⟩
      · simp [clearDisconnectTimer, setT_same]
      · simp [clearDisconnectTimer, setT_same]
      · simp [clearDisconnectTimer, setT_same]
    · refine ⟨?_, ?_, ?_, rfl, rfl, rfl, rfl, hact, by simp, by simp⟩
      · simp [clearDisconnectTimer, setT_same]
      · simp [clearDisconnectTimer, setT_same]
      · simp [clearDisconnectTimer, setT_same]

/-- C7: If a seat's holder disconnects mid-game and a join re-occupies
that seat before the grace timer fires, the pending grace timer is
cancelled, no opponentLeft event is emitted for that drop, the room's
round, scores, picks and board are unchanged by the temporary vacancy,
and the game does not restart because the room is still active. -/
theorem claim_C7 (r : Room) (t : Team) (sid sid2 : Nat) (time : Int) (b : Board)
    (hact : r.active = true)
    (hpl : r.players t = some sid)
    (honly : ∀ t', r.players t' = some sid → t' = t) :
    (onDisconnect r sid time).1.timers t = some time ∧
    Msg.opponentLeft ∉ (onDisconnect r sid time).2 ∧
    (joinRoom (onDisconnect r sid time).1 sid2 (some t) b).1.timers t = none ∧
    (joinRoom (onDisconnect r sid time).1 sid2 (some t) b).1.offlineSince t = none ∧
    Msg.opponentLeft ∉ (joinRoom (onDisconnect r sid time).1 sid2 (some t) b).2 ∧
    (∀ st, Msg.gameStart st ∉ (joinRoom (onDisconnect r sid time).1 sid2 (some t) b).2) ∧
    (joinRoom (onDisconnect r sid time).1 sid2 (some t) b).1.round = r.round ∧
    (joinRoom (onDisconnect r sid time).1 sid2 (some t) b).1.scores = r.scores ∧
    (joinRoom (onDisconnect r sid time).1 sid2 (some t) b).1.picks = r.picks ∧
    (joinRoom (onDisconnect r sid time).1 sid2 (some t) b).1.board = r.board ∧
    (joinRoom (onDisconnect r sid time).1 sid2 (some t) b).1.active = true ∧
    (joinRoom (onDisconnect r sid time).1 sid2 (some t) b).1.players t = some sid2 := by
  have hother : r.players (otherTeam t) ≠ some sid := fun h =>
    absurd (honly _ h) (otherTeam_ne t)
  obtain ⟨d1, d2, d3, d4, d5, d6, d7, d8, d9⟩ := onDisconnect_fields r t sid time hpl hother
  obtain ⟨j1, j2, j3, j4, j5, j6, j7, j8, j9, j10⟩ :=
    joinRoom_rejoin_fields (onDisconnect r sid time).1 t sid2 b d1 (by rw [d8, hact])
  refine ⟨d3, ?_, j2, j3, j9, j10, j4.trans d4, j5.trans d5, j6.trans d6,
    j7.trans d7, j8, j1⟩
  rw [d9]
  simp

/-- Witness for C7 at a concrete active room: the timer is armed by the
disconnect, cancelled by the rejoin, and the board survives. -/
theorem claim_C7_witness :
    (onDisconnect activeRoom 1 42).1.timers Team.A = some 42 ∧
      (joinRoom (onDisconnect activeRoom 1 42).1 7 (some Team.A) zeroBoard).1.timers Team.A =
        none ∧
      (joinRoom (onDisconnect activeRoom 1 42).1 7 (some Team.A) zeroBoard).1.board =
        activeRoom.board ∧
      (joinRoom (onDisconnect activeRoom 1 42).1 7 (some Team.A) zeroBoard).1.active = true := by
  obtain ⟨c1, c2, c3, c4, c5, c6, c7, c8, c9, c10, c11, c12⟩ :=
    claim_C7 activeRoom Team.A 1 7 42 zeroBoard rfl rfl (by decide)
  exact ⟨c1, c3, c10, c11⟩

theorem stepSrv_none (e : Event) : (stepSrv none e).1 = none := by
  cases e <;> rfl

theorem foldl_board_active (f : Room → Team → Room)
    (hf : ∀ acc t, (f acc t).board = acc.board ∧ (f acc t).active = acc.active) :
    ∀ (l : List Team) (r0 : Room),
      (l.foldl f r0).board = r0.board ∧ (l.foldl f r0).active = r0.active := by
  intro l
  induction l with
  | nil => exact fun r0 => ⟨rfl, rfl⟩
  | cons t l ih =>
    intro r0
    have h1 := ih (f r0 t)
    have h2 := hf r0 t
    exact ⟨h1.1.trans h2.1, h1.2.trans h2.2⟩

theorem joinRoom_c2 (r : Room) (sid : Nat) (team : Option Team) (b : Board) :
    ((joinRoom r sid team b).1.board = r.board ∧
      (joinRoom r sid team b).1.active = r.active) ∨
      (joinRoom r sid team b).1.board ≠ none := by
  unfold joinRoom
  cases team with
  | none => exact Or.inl ⟨rfl, rfl⟩
  | some t =>
    have hbody : ∀ r' : Room, r'.board = r.board → r'.active = r.active →
        ((joinRoomBody r' sid t b).1.board = r.board ∧
          (joinRoomBody r' sid t b).1.active = r.active) ∨
          (joinRoomBody r' sid t b).1.board ≠ none := by
      intro r' hb ha
      unfold joinRoomBody
      dsimp only
      split
      · split
        · exact Or.inr (by simp [startGame])
        · split
          · exact Or.inl ⟨hb, ha⟩
          · exact Or.inl ⟨hb, ha⟩
      · split
        · exact Or.inr (by simp [startGame])
        · split
          · exact Or.inl ⟨hb, ha⟩
          · exact Or.inl ⟨hb, ha⟩
    dsimp only
    split
    · split
      · exact Or.inl ⟨rfl, rfl⟩
      · exact hbody r rfl rfl
    · exact hbody r rfl rfl

theorem pickRow_c2 (r : Room) (sid : Nat) (v : JSVal) :
    (pickRow r sid v).1.board = r.board ∧ (pickRow r sid v).1.active = r.active := by
  unfold pickRow
  split
  · exact ⟨rfl, rfl⟩
  split
  · exact ⟨rfl, rfl⟩
  split
  · exact ⟨rfl, rfl⟩
  split
  · exact ⟨rfl, rfl⟩
  split
  · exact ⟨rfl, rfl⟩
  dsimp only
  split
  · exact ⟨(finishRound_fields _).2.2.2.1, (finishRound_fields _).2.2.2.2.1⟩
  · exact ⟨rfl, rfl⟩

theorem pickCol_c2 (r : Room) (sid : Nat) (v : JSVal) :
    (pickCol r sid v).1.board = r.board ∧ (pickCol r sid v).1.active = r.active := by
  unfold pickCol
  split
  · exact ⟨rfl, rfl⟩
  split
  · exact ⟨rfl, rfl⟩
  split
  · exact ⟨rfl, rfl⟩
  split
  · exact ⟨rfl, rfl⟩
  split
  · exact ⟨rfl, rfl⟩
  dsimp only
  split
  · exact ⟨(finishRound_fields _).2.2.2.1, (finishRound_fields _).2.2.2.2.1⟩
  · exact ⟨rfl, rfl⟩

theorem leaveRoom_c2 (r : Room) (sid : Nat) (r' : Room)
    (hstep : (leaveRoom r sid).1 = some r') :
    (r'.board = r.board ∧ r'.active = r.active) ∨ r'.active = false := by
  unfold leaveRoom at hstep
  dsimp only at hstep
  split at hstep
  · cases hstep
    exact Or.inl ⟨rfl, rfl⟩
  · split at hstep
    · cases hstep
      exact Or.inr rfl
    · cases hstep

theorem restartGame_c2 (r : Room) (sid : Nat) (b : Board) :
    ((restartGame r sid b).1.board = r.board ∧
      (restartGame r sid b).1.active = r.active) ∨
      (restartGame r sid b).1.board ≠ none := by
  unfold restartGame
  split
  · exact Or.inl ⟨rfl, rfl⟩
  · split
    · exact Or.inl ⟨rfl, rfl⟩
    · split
      · exact Or.inl ⟨rfl, rfl⟩
      · exact Or.inr (by simp [startGame])

theorem onDisconnect_c2 (r : Room) (sid : Nat) (time : Int) :
    (onDisconnect r sid time).1.board = r.board ∧
      (onDisconnect r sid time).1.active = r.active := by
  unfold onDisconnect
  dsimp only
  split
  · exact ⟨rfl, rfl⟩
  · apply foldl_board_active
    intro acc t
    exact ⟨rfl, rfl⟩

theorem fireGrace_c2 (r : Room) (t : Team) :
    ((fireGrace r t).1.board = r.board ∧ (fireGrace r t).1.active = r.active) ∨
      (fireGrace r t).1.active = false := by
  unfold fireGrace
  split
  · exact Or.inl ⟨rfl, rfl⟩
  · split
    · exact Or.inl ⟨rfl, rfl⟩
    · exact Or.inr rfl

theorem fireRound_c2 (r : Room) (b : Board) :
    ((fireRound r b).1.board = r.board ∧ (fireRound r b).1.active = r.active) ∨
      (fireRound r b).1.board ≠ none ∨ (fireRound r b).1.active = false := by
  unfold fireRound
  split
  · exact Or.inl ⟨rfl, rfl⟩
  · split
    · exact Or.inr (Or.inr rfl)
    · exact Or.inr (Or.inl (by simp))

theorem step_preserves_activeBoard (r0 : Room) (e : Event) (r : Room)
    (hstep : (stepRoom r0 e).1 = some r)
    (h0 : r0.active = true → r0.board ≠ none) :
    r.active = true → r.board ≠ none := by
  intro hact
  cases e with
  | join sid team b =>
    cases hstep
    rcases joinRoom_c2 r0 sid team b with ⟨hb, ha⟩ | hb
    · rw [hb]; exact h0 (ha ▸ hact)
    · exact hb
  | pickRowE sid v =>
    cases hstep
    obtain ⟨hb, ha⟩ := pickRow_c2 r0 sid v
    rw [hb]; exact h0 (ha ▸ hact)
  | pickColE sid v =>
    cases hstep
    obtain ⟨hb, ha⟩ := pickCol_c2 r0 sid v
    rw [hb]; exact h0 (ha ▸ hact)
  | leave sid =>
    rcases leaveRoom_c2 r0 sid r hstep with ⟨hb, ha⟩ | ha
    · rw [hb]; exact h0 (ha ▸ hact)
    · rw [ha] at hact; cases hact
  | restart sid b =>
    cases hstep
    rcases restartGame_c2 r0 sid b with ⟨hb, ha⟩ | hb
    · rw [hb]; exact h0 (ha ▸ hact)
    · exact hb
  | disconnectE sid time =>
    cases hstep
    obtain ⟨hb, ha⟩ := onDisconnect_c2 r0 sid time
    rw [hb]; exact h0 (ha ▸ hact)
  | graceFire t =>
    cases hstep
    rcases fireGrace_c2 r0 t with ⟨hb, ha⟩ | ha
    · rw [hb]; exact h0 (ha ▸ hact)
    · rw [ha] at hact; cases hact
  | roundFire b =>
    cases hstep
    rcases fireRound_c2 r0 b with ⟨hb, ha⟩ | hb | ha
    · rw [hb]; exact h0 (ha ▸ hact)
    · exact hb
    · rw [ha] at hact; cases hact

theorem reachable_active_board :
    ∀ s, Reachable s → ∀ r, s = some r → r.active = true → r.board ≠ none := by
  intro s h
  induction h with
  | init =>
    intro r hr
    cases hr
    intro ha
    exact absurd ha (by decide)
  | step h0 e ih =>
    rename_i s0
    intro r hr
    cases s0 with
    | none =>
      rw [stepSrv_none] at hr
      cases hr
    | some r0 =>
      exact step_preserves_activeBoard r0 e r hr (ih r0 rfl)

theorem specRoundState_open_active (r : Room)
    (h : specRoundState r = RState.Active ∨ specRoundState r = RState.Resolving) :
    r.active = true := by
  cases hb : r.active with
  | true => rfl
  | false =>
    exfalso
    rcases h with h | h <;>
      · simp only [specRoundState, hb, Bool.false_eq_true, if_false] at h
        split at h
        · cases h
        · split at h <;> cases h

/-- C2 (amended): In every reachable room state, if the room is in an
open round (Active or Resolving), the board is non-null.  The converse of
the claimed equivalence fails: after round 9 resolves, the final board
remains attached in the Finished state (see the counterexample). -/
theorem claim_C2 (r : Room) (hreach : Reachable (some r))
    (hopen : specRoundState r = RState.Active ∨ specRoundState r = RState.Resolving) :
    r.board ≠ none :=
  reachable_active_board (some r) hreach r rfl (specRoundState_open_active r hopen)

/-- Witness for the amended C2 at the reachable state right after both
players joined. -/
theorem claim_C2_witness : activeRoom.board ≠ none := by
  have hrun : runEvents (some initRoom) joinEvents = some activeRoom := by decide
  have hreach : Reachable (some activeRoom) := by
    have h := reachable_runEvents Reachable.init joinEvents
    rwa [hrun] at h
  exact claim_C2 activeRoom hreach (Or.inl (by decide))

/-- C2 counterexample: running a full nine-round game reaches a room in
the Finished state whose board is still non-null, so the claimed
equivalence (board non-null iff Active or Resolving) is false on a
reachable state. -/
theorem claim_C2_counterexample :
    Reachable (some finishedRoom) ∧ specRoundState finishedRoom = RState.Finished ∧
      finishedRoom.board ≠ none ∧
      ¬(∀ r : Room, Reachable (some r) →
        (r.board ≠ none ↔
          (specRoundState r = RState.Active ∨ specRoundState r = RState.Resolving))) := by
  have hrun : runEvents (some initRoom) fullGameEvents = some finishedRoom := by decide
  have hreach : Reachable (some finishedRoom) := by
    have h := reachable_runEvents Reachable.init fullGameEvents
    rwa [hrun] at h
  refine ⟨hreach, by decide, by decide, fun hclaim => ?_⟩
  have h2 := (hclaim finishedRoom hreach).mp (by decide)
  revert h2
  decide

theorem resolveRound_picks_some (r : Room) (p : Room × RoundRes)
    (h : resolveRound r = some p) :
    (r.picks Team.A).isSome = true ∧ (r.picks Team.B).isSome = true := by
  unfold resolveRound at h
  split at h
  · rename_i b row col hb hrow hcol
    exact ⟨by rw [hrow]; rfl, by rw [hcol]; rfl⟩
  · cases h

theorem afterRound9_congr (x y : Room)
    (h1 : x.pendingRound = y.pendingRound) (h2 : x.picks = y.picks)
    (h3 : x.active = y.active) : afterRound9 x = afterRound9 y := by
  unfold afterRound9
  rw [h1, h2, h3]

theorem foldl_afterRound9 (f : Room → Team → Room)
    (hf : ∀ acc t, (f acc t).pendingRound = acc.pendingRound ∧
      (f acc t).picks = acc.picks ∧ (f acc t).active = acc.active) :
    ∀ (l : List Team) (r0 : Room), afterRound9 (l.foldl f r0) = afterRound9 r0 := by
  intro l
  induction l with
  | nil => exact fun r0 => rfl
  | cons t l ih =>
    intro r0
    have h1 := ih (f r0 t)
    have h2 := hf r0 t
    simp only [List.foldl_cons]
    rw [h1, afterRound9_congr (f r0 t) r0 h2.1 h2.2.1 h2.2.2]

theorem pickRow_locked (r : Room) (hA : afterRound9 r = true) (sid : Nat) (v : JSVal) :
    (pickRow r sid v).1 = r ∧ (pickRow r sid v).2.any isFailMsg = true := by
  cases hact : r.active with
  | false =>
    unfold pickRow
    rw [if_pos hact]
    exact ⟨rfl, rfl⟩
  | true =>
    have hp : r.picks Team.A ≠ none := by
      simp only [afterRound9, hact, Bool.not_true, Bool.or_false,
        Bool.and_eq_true] at hA
      exact Option.isSome_iff_ne_none.mp hA.1.2
    unfold pickRow
    rw [if_neg (by simp [hact])]
    split
    · exact ⟨rfl, rfl⟩
    · split
      · exact ⟨rfl, rfl⟩
      · split
        · exact ⟨rfl, rfl⟩
        · exact ⟨rfl, rfl⟩

theorem pickCol_locked (r : Room) (hA : afterRound9 r = true) (sid : Nat) (v : JSVal) :
    (pickCol r sid v).1 = r ∧ (pickCol r sid v).2.any isFailMsg = true := by
  cases hact : r.active with
  | false =>
    unfold pickCol
    rw [if_pos hact]
    exact ⟨rfl, rfl⟩
  | true =>
    have hp : r.picks Team.B ≠ none := by
      simp only [afterRound9, hact, Bool.not_true, Bool.or_false,
        Bool.and_eq_true] at hA
      exact Option.isSome_iff_ne_none.mp hA.2
    unfold pickCol
    rw [if_neg (by simp [hact])]
    split
    · exact ⟨rfl, rfl⟩
    · split
      · exact ⟨rfl, rfl⟩
      · split
        · exact ⟨rfl, rfl⟩
        · exact ⟨rfl, rfl⟩

theorem joinRoom_c3 (r : Room) (sid : Nat) (team : Option Team) (b : Board) :
    ((joinRoom r sid team b).1.pendingRound = r.pendingRound ∧
      (joinRoom r sid team b).1.picks = r.picks ∧
      (joinRoom r sid team b).1.active = r.active) ∨
      (joinRoom r sid team b).2.any isGameStartMsg = true := by
  unfold joinRoom
  cases team with
  | none => exact Or.inl ⟨rfl, rfl, rfl⟩
  | some t =>
    have hbody : ∀ r' : Room, r'.pendingRound = r.pendingRound → r'.picks = r.picks →
        r'.active = r.active →
        ((joinRoomBody r' sid t b).1.pendingRound = r.pendingRound ∧
          (joinRoomBody r' sid t b).1.picks = r.picks ∧
          (joinRoomBody r' sid t b).1.active = r.active) ∨
          (joinRoomBody r' sid t b).2.any isGameStartMsg = true := by
      intro r' hp hk ha
      unfold joinRoomBody
      dsimp only
      split
      · split
        · exact Or.inr (by simp [isGameStartMsg])
        · split
          · exact Or.inl ⟨hp, hk, ha⟩
          · exact Or.inl ⟨hp, hk, ha⟩
      · split
        · exact Or.inr (by simp [isGameStartMsg])
        · split
          · exact Or.inl ⟨hp, hk, ha⟩
          · exact Or.inl ⟨hp, hk, ha⟩
    dsimp only
    split
    · split
      · exact Or.inl ⟨rfl, rfl, rfl⟩
      · exact hbody r rfl rfl rfl
    · exact hbody r rfl rfl rfl

theorem restartGame_c3 (r : Room) (sid : Nat) (b : Board) :
    (restartGame r sid b).1 = r ∨ (restartGame r sid b).2.any isGameStartMsg = true := by
  unfold restartGame
  split
  · exact Or.inl rfl
  · split
    · exact Or.inl rfl
    · split
      · exact Or.inl rfl
      · exact Or.inr (by simp [isGameStartMsg])

theorem onDisconnect_c3 (r : Room) (sid : Nat) (time : Int) :
    afterRound9 (onDisconnect r sid time).1 = afterRound9 r := by
  unfold onDisconnect
  dsimp only
  split
  · rfl
  · apply foldl_afterRound9
    intro acc t
    exact ⟨rfl, rfl, rfl⟩

/-- C3: Once round 9 has resolved, the room enters a locked region: the
pending game-over callback is the sole scheduled round task with both
picks still recorded, or the room has already been deactivated; firing
that callback makes the room Finished (active false); in the locked
region every pickRow or pickCol request is rejected with an error or
invalidPick and does not mutate the room; and every event that does not
start a new game (i.e. emits no gameStart) keeps the room locked. -/
theorem claim_C3 (r : Room) :
    (r.pendingRound = [] → r.round ≥ 9 →
      (finishRound r).2.any isRoundResultMsg = true →
      afterRound9 (finishRound r).1 = true) ∧
    (∀ fsA fsB w rest b, r.pendingRound = PendTask.gameOverT fsA fsB w :: rest →
      (fireRound r b).1.active = false) ∧
    (afterRound9 r = true →
      (∀ sid v, (pickRow r sid v).1 = r ∧ (pickRow r sid v).2.any isFailMsg = true) ∧
      (∀ sid v, (pickCol r sid v).1 = r ∧ (pickCol r sid v).2.any isFailMsg = true)) ∧
    (afterRound9 r = true →
      ∀ e r', (stepRoom r e).1 = some r' →
        (stepRoom r e).2.any isGameStartMsg = false → afterRound9 r' = true) := by
  refine ⟨?_, ?_, ?_, ?_⟩
  · intro hpend hround hres
    unfold finishRound at hres ⊢
    cases hr : resolveRound r with
    | none =>
      simp only [hr] at hres
      simp [isRoundResultMsg] at hres
    | some p =>
      obtain ⟨r1, res⟩ := p
      simp only [hr]
      obtain ⟨f1, f2, f3, f4, f5, f6, f7, f8⟩ := resolveRound_fields r (r1, res) hr
      obtain ⟨hpA, hpB⟩ := resolveRound_picks_some r (r1, res) hr
      have f2' : r1.round = r.round := f2
      have f3' : r1.picks = r.picks := f3
      have f8' : r1.pendingRound = r.pendingRound := f8
      rw [if_pos (by rw [f2']; exact hround)]
      simp [afterRound9, f8', hpend, f3', hpA, hpB, isGameOverTask]
  · intro fsA fsB w rest b hpend
    unfold fireRound
    rw [hpend]
  · intro hA
    exact ⟨fun sid v => pickRow_locked r hA sid v, fun sid v => pickCol_locked r hA sid v⟩
  · intro hA e r' hstep hnostart
    cases e with
    | join sid team b =>
      cases hstep
      rcases joinRoom_c3 r sid team b with ⟨p1, p2, p3⟩ | hg
      · rw [afterRound9_congr _ r p1 p2 p3]
        exact hA
      · have hns : (joinRoom r sid team b).2.any isGameStartMsg = false := hnostart
        rw [hg] at hns
        cases hns
    | pickRowE sid v =>
      cases hstep
      rw [(pickRow_locked r hA sid v).1]
      exact hA
    | pickColE sid v =>
      cases hstep
      rw [(pickCol_locked r hA sid v).1]
      exact hA
    | leave sid =>
      have hstep' : (leaveRoom r sid).1 = some r' := hstep
      unfold leaveRoom at hstep'
      dsimp only at hstep'
      split at hstep'
      · cases hstep'
        exact hA
      · split at hstep'
        · cases hstep'
          simp [afterRound9, resetRoomAfterLeave]
        · cases hstep'
    | restart sid b =>
      cases hstep
      rcases restartGame_c3 r sid b with heq | hg
      · rw [heq]
        exact hA
      · have hns : (restartGame r sid b).2.any isGameStartMsg = false := hnostart
        rw [hg] at hns
        cases hns
    | disconnectE sid time =>
      cases hstep
      rw [onDisconnect_c3]
      exact hA
    | graceFire t =>
      cases hstep
      unfold fireGrace
      dsimp only
      split
      · exact hA
      · split
        · exact hA
        · simp [afterRound9]
    | roundFire b =>
      cases hstep
      unfold fireRound
      cases hpend : r.pendingRound with
      | nil => exact hA
      | cons task rest =>
        cases task with
        | gameOverT fsA fsB w => simp [afterRound9]
        | nextT =>
          cases hact : r.active with
          | false => simp [afterRound9, hact]
          | true =>
            exfalso
            cases rest with
            | nil => simp [afterRound9, hact, hpend, isGameOverTask] at hA
            | cons t2 l2 => simp [afterRound9, hact, hpend, isGameOverTask] at hA

/-- Witness for C3 at the concrete state just after round 9 resolved:
picks are rejected without mutation and the pending game-over callback
deactivates the room. -/
theorem claim_C3_witness :
    afterRound9 resolvingRoom = true ∧
      (pickRow resolvingRoom 1 (JSVal.num 0)).1 = resolvingRoom ∧
      (fireRound resolvingRoom zeroBoard).1.active = false := by
  have h := claim_C3 resolvingRoom
  exact ⟨by decide, ((h.2.2.1 (by decide)).1 1 (JSVal.num 0)).1,
    h.2.1 0 0 Winner.draw [] zeroBoard rfl⟩
